import Mathlib

/-!
Verification of the sandalphone vps-gateway voice-translation core.

The TypeScript sources under vps-gateway/src are shallowly embedded:
JavaScript Map objects become association lists with set/get/delete
operations, class methods become pure functions threading explicit state,
awaited provider calls are resolved by oracle inputs, and timestamps are
integers supplied by the caller (Date.now is an input).  Functions missing
from the available sources but exercised by their callers and tests are
modelled from the specification and carry a doc comment saying so.
-/

/-- Association-list model of a JavaScript Map: get returns the binding if
present.  All mutation goes through mapSet / mapErase, which keep keys
distinct, so list length models Map size. -/
def mapGet {κ α : Type} [DecidableEq κ] : List (κ × α) → κ → Option α
  | [], _ => none
  | (k0, v) :: rest, k => if k = k0 then some v else mapGet rest k

/-- Association-list model of Map.set: replace in place or append. -/
def mapSet {κ α : Type} [DecidableEq κ] : List (κ × α) → κ → α → List (κ × α)
  | [], k, v => [(k, v)]
  | (k0, v0) :: rest, k, v =>
    if k = k0 then (k, v) :: rest else (k0, v0) :: mapSet rest k v

/-- Association-list model of Map.delete (removes every binding of the
key; on the unique-key lists produced by mapSet this is the single one). -/
def mapErase {κ α : Type} [DecidableEq κ] : List (κ × α) → κ → List (κ × α)
  | [], _ => []
  | (k0, v0) :: rest, k =>
    if k = k0 then mapErase rest k else (k0, v0) :: mapErase rest k

/-! Domain data model, from vps-gateway/src/domain/types.ts.  Internal
session ids minted by randomUUID are modelled as naturals issued by a
counter; audio payloads are byte lists; millisecond timestamps are
integers. -/

inductive IngressSource
  | voipms
  | twilio
deriving DecidableEq, Repr

inductive SessionMode
  | private_translation
  | passthrough
deriving DecidableEq, Repr

inductive LanguageCode
  | en
  | es
deriving DecidableEq, Repr

inductive SessionState
  | pending
  | active
  | ended
  | failed
deriving DecidableEq, Repr

inductive AudioEncoding
  | pcm_s16le
  | mulaw
deriving DecidableEq, Repr

structure CallSession where
  id : Nat
  source : IngressSource
  inboundCaller : String
  startedAtMs : Int
  targetPhoneE164 : String
  mode : SessionMode
  sourceLanguage : LanguageCode
  targetLanguage : LanguageCode
  state : SessionState
deriving DecidableEq, Repr

structure IncomingCallEvent where
  source : IngressSource
  externalCallId : String
  sentFrom : String
  sentTo : String
  receivedAtMs : Int
deriving DecidableEq, Repr

structure AudioFrame where
  sessionId : Nat
  source : IngressSource
  sampleRateHz : Nat
  encoding : AudioEncoding
  timestampMs : Int
  payload : List Nat
deriving DecidableEq, Repr

structure TranscriptionChunk where
  sessionId : Nat
  text : String
  isFinal : Bool
  language : LanguageCode
  timestampMs : Int
deriving DecidableEq, Repr

structure TranslationChunk where
  sessionId : Nat
  text : String
  sourceLanguage : LanguageCode
  targetLanguage : LanguageCode
  timestampMs : Int
deriving DecidableEq, Repr

structure TtsChunk where
  sessionId : Nat
  encoding : AudioEncoding
  sampleRateHz : Nat
  payload : List Nat
  timestampMs : Int
deriving DecidableEq, Repr

structure SessionControlUpdate where
  mode : Option SessionMode
  sourceLanguage : Option LanguageCode
  targetLanguage : Option LanguageCode
deriving DecidableEq, Repr

/-! Egress store, from the EgressStore class of the pipeline sources
(per-session bounded FIFO of TtsChunks).  enqueue pushes the chunk and, if
the queue length then exceeds the bound, shifts off the head (the oldest
chunk); dequeue shifts the head and deletes the map entry when the queue
empties; size reads the queue length defaulting to zero. -/

structure EgressStore where
  maxQueuePerSession : Nat
  queues : List (Nat × List TtsChunk)
deriving DecidableEq, Repr

namespace EgressStore

def enqueue (st : EgressStore) (chunk : TtsChunk) : EgressStore :=
  let queue := (mapGet st.queues chunk.sessionId).getD []
  let pushed := queue ++ [chunk]
  let bounded := if st.maxQueuePerSession < pushed.length then pushed.tail else pushed
  { st with queues := mapSet st.queues chunk.sessionId bounded }

def dequeue (st : EgressStore) (sessionId : Nat) : EgressStore × Option TtsChunk :=
  match mapGet st.queues sessionId with
  | none => (st, none)
  | some [] => (st, none)
  | some (chunk :: rest) =>
    if rest.isEmpty then ({ st with queues := mapErase st.queues sessionId }, some chunk)
    else ({ st with queues := mapSet st.queues sessionId rest }, some chunk)

def size (st : EgressStore) (sessionId : Nat) : Nat :=
  ((mapGet st.queues sessionId).getD []).length

end EgressStore

/-- Single-queue semantics of one enqueue: push, then drop the head when
the bound is exceeded. -/
def queueStep (bound : Nat) (q : List TtsChunk) (c : TtsChunk) : List TtsChunk :=
  let pushed := q ++ [c]
  if bound < pushed.length then pushed.tail else pushed

/-- Concrete translated-audio chunk used by evaluation witnesses. -/
def sampleChunk (sid : Nat) (t : Int) : TtsChunk :=
  { sessionId := sid, encoding := .pcm_s16le, sampleRateHz := 16000
    payload := [1], timestampMs := t }

/-! Session store, from vps-gateway/src/pipeline/session-store.ts.  The
randomUUID mint is modelled by a counter: ids are naturals and nextId is
the next unissued one.  The external index key is the template string
source ++ colon ++ externalCallId exactly as in the source. -/

def IngressSource.toKey : IngressSource → String
  | .voipms => "voipms"
  | .twilio => "twilio"

structure SessionStore where
  sessions : List (Nat × CallSession)
  externalToInternal : List (String × Nat)
  nextId : Nat
deriving DecidableEq, Repr

namespace SessionStore

def empty : SessionStore := { sessions := [], externalToInternal := [], nextId := 0 }

/-- The fresh CallSession record built by createFromIncoming. -/
def mintSession (event : IncomingCallEvent) (targetPhoneE164 : String) (id : Nat) :
    CallSession :=
  { id := id, source := event.source, inboundCaller := event.sentFrom
    startedAtMs := event.receivedAtMs, targetPhoneE164 := targetPhoneE164
    mode := .private_translation, sourceLanguage := .es, targetLanguage := .en
    state := .pending }

def createFromIncoming (st : SessionStore) (event : IncomingCallEvent)
    (targetPhoneE164 : String) : SessionStore × CallSession :=
  let id := st.nextId
  let session := mintSession event targetPhoneE164 id
  ({ sessions := mapSet st.sessions id session
     externalToInternal :=
       mapSet st.externalToInternal (event.source.toKey ++ ":" ++ event.externalCallId) id
     nextId := st.nextId + 1 }, session)

def getByExternal (st : SessionStore) (source externalCallId : String) : Option CallSession :=
  match mapGet st.externalToInternal (source ++ ":" ++ externalCallId) with
  | none => none
  | some internalId => mapGet st.sessions internalId

def get (st : SessionStore) (id : Nat) : Option CallSession :=
  mapGet st.sessions id

def all (st : SessionStore) : List CallSession :=
  st.sessions.map (fun p => p.2)

def updateState (st : SessionStore) (id : Nat) (state : SessionState) :
    SessionStore × Option CallSession :=
  match mapGet st.sessions id with
  | none => (st, none)
  | some existing =>
    let updated := { existing with state := state }
    ({ st with sessions := mapSet st.sessions id updated }, some updated)

/-- Modelled from the spec: SessionStore.updateControl is called by
VoiceOrchestrator.updateSessionControl but is absent from the available
session-store.ts revision.  Per the spec it applies the patch's optional
mode / sourceLanguage / targetLanguage fields to the stored session and
returns it, and the fields may be updated only while the state is pending
or active, so an ended (or failed) session is left untouched and nothing
is returned. -/
def applyControlPatch (s : CallSession) (patch : SessionControlUpdate) : CallSession :=
  { s with
    mode := patch.mode.getD s.mode
    sourceLanguage := patch.sourceLanguage.getD s.sourceLanguage
    targetLanguage := patch.targetLanguage.getD s.targetLanguage }

def updateControl (st : SessionStore) (id : Nat) (patch : SessionControlUpdate) :
    SessionStore × Option CallSession :=
  match mapGet st.sessions id with
  | none => (st, none)
  | some existing =>
    if existing.state = .pending ∨ existing.state = .active then
      let updated := applyControlPatch existing patch
      ({ st with sessions := mapSet st.sessions id updated }, some updated)
    else (st, none)

end SessionStore

/-! Voice orchestrator, from vps-gateway/src/pipeline/orchestrator.ts.
Per-session metrics mirror the SessionMetrics record: the four latency
gauges and the four counters are optional and created lazily.  Event
emission through the optional onSessionEvent hook is modelled as an
append-only list of delivered events; provider invocations are logged in
per-provider call lists and resolved by a FrameOracle carrying the awaited
results and the observed latencies. -/

structure SessionMetrics where
  sessionId : Nat
  sttLatencyMs : Option Int
  translationLatencyMs : Option Int
  ttsLatencyMs : Option Int
  pipelineLatencyMs : Option Int
  droppedFrames : Option Nat
  passthroughFrames : Option Nat
  translatedChunks : Option Nat
  egressDropCount : Option Nat
  egressQueuePeak : Option Nat
deriving DecidableEq, Repr

def SessionMetrics.init (sid : Nat) : SessionMetrics :=
  { sessionId := sid, sttLatencyMs := none, translationLatencyMs := none
    ttsLatencyMs := none, pipelineLatencyMs := none, droppedFrames := none
    passthroughFrames := none, translatedChunks := none, egressDropCount := none
    egressQueuePeak := none }

inductive CounterField
  | droppedFrames
  | passthroughFrames
  | translatedChunks
  | egressDropCount
deriving DecidableEq, Repr

def SessionMetrics.getCounter (m : SessionMetrics) : CounterField → Option Nat
  | .droppedFrames => m.droppedFrames
  | .passthroughFrames => m.passthroughFrames
  | .translatedChunks => m.translatedChunks
  | .egressDropCount => m.egressDropCount

def SessionMetrics.setCounter (m : SessionMetrics) : CounterField → Nat → SessionMetrics
  | .droppedFrames, n => { m with droppedFrames := some n }
  | .passthroughFrames, n => { m with passthroughFrames := some n }
  | .translatedChunks, n => { m with translatedChunks := some n }
  | .egressDropCount, n => { m with egressDropCount := some n }

inductive SessionEventType
  | started
  | ended
  | controlUpdated
  | transcript
  | translation
deriving DecidableEq, Repr

inductive EventPayload
  | started (source : IngressSource) (inboundCaller targetPhoneE164 : String)
      (mode : SessionMode) (sourceLanguage targetLanguage : LanguageCode)
  | controlUpdated (mode : SessionMode) (sourceLanguage targetLanguage : LanguageCode)
  | transcriptData (text : String) (isFinal : Bool) (language : LanguageCode)
  | translationData (text : String) (sourceLanguage targetLanguage : LanguageCode)
  | ended (source : IngressSource) (metrics : Option SessionMetrics)
deriving DecidableEq, Repr

structure SessionEvent where
  type : SessionEventType
  sessionId : Nat
  atMs : Int
  payload : EventPayload
deriving DecidableEq, Repr

structure OrchestratorDeps where
  outboundTargetE164 : String
  minFrameIntervalMs : Option Int
  hasOnTtsChunk : Bool
  hasOnSessionEvent : Bool
deriving DecidableEq, Repr

structure FrameOracle where
  transcript : Option TranscriptionChunk
  sttLatencyMs : Int
  translation : Option TranslationChunk
  translationLatencyMs : Int
  tts : Option TtsChunk
  ttsLatencyMs : Int
deriving DecidableEq, Repr

structure OrchState where
  sessionStore : SessionStore
  metrics : List (Nat × SessionMetrics)
  lastFrameAtMs : List (Nat × Int)
  events : List SessionEvent
  sttCalls : List AudioFrame
  translateCalls : List TranscriptionChunk
  synthesizeCalls : List TranslationChunk
  ttsDelivered : List TtsChunk
deriving DecidableEq, Repr

def OrchState.initial : OrchState :=
  { sessionStore := SessionStore.empty, metrics := [], lastFrameAtMs := []
    events := [], sttCalls := [], translateCalls := [], synthesizeCalls := []
    ttsDelivered := [] }

namespace VoiceOrchestrator

def emitEvent (deps : OrchestratorDeps) (st : OrchState) (e : SessionEvent) : OrchState :=
  if deps.hasOnSessionEvent then { st with events := st.events ++ [e] } else st

def onIncomingCall (deps : OrchestratorDeps) (st : OrchState) (event : IncomingCallEvent)
    (now : Int) : OrchState × CallSession :=
  match st.sessionStore.getByExternal event.source.toKey event.externalCallId with
  | some existing => (st, existing)
  | none =>
    let created := st.sessionStore.createFromIncoming event deps.outboundTargetE164
    let session := created.2
    let afterState := created.1.updateState session.id .active
    let returned := (afterState.2).getD session
    let st1 := { st with sessionStore := afterState.1 }
    let st2 := emitEvent deps st1
      { type := .started, sessionId := session.id, atMs := now
        payload := .started session.source session.inboundCaller session.targetPhoneE164
          session.mode session.sourceLanguage session.targetLanguage }
    (st2, returned)

def resolveSessionIdByExternal (st : OrchState) (source externalCallId : String) : Option Nat :=
  (st.sessionStore.getByExternal source externalCallId).map (fun s => s.id)

def getSession (st : OrchState) (sessionId : Nat) : Option CallSession :=
  st.sessionStore.get sessionId

def getMetrics (st : OrchState) (sessionId : Nat) : Option SessionMetrics :=
  mapGet st.metrics sessionId

def updateSessionControl (deps : OrchestratorDeps) (st : OrchState) (sessionId : Nat)
    (patch : SessionControlUpdate) (now : Int) : OrchState × Option CallSession :=
  let r := st.sessionStore.updateControl sessionId patch
  let st1 := { st with sessionStore := r.1 }
  match r.2 with
  | none => (st1, none)
  | some session =>
    let st2 := emitEvent deps st1
      { type := .controlUpdated, sessionId := sessionId, atMs := now
        payload := .controlUpdated session.mode session.sourceLanguage session.targetLanguage }
    (st2, some session)

def incrementMetric (st : OrchState) (sessionId : Nat) (field : CounterField) : OrchState :=
  let current := (mapGet st.metrics sessionId).getD (SessionMetrics.init sessionId)
  let next := (current.getCounter field).getD 0 + 1
  { st with metrics := mapSet st.metrics sessionId (current.setCounter field next) }

def markFrameDropped (st : OrchState) (sessionId : Nat) : OrchState :=
  incrementMetric st sessionId .droppedFrames

def trackMetrics (st : OrchState) (sessionId : Nat) (delta : SessionMetrics) : OrchState :=
  let previous := (mapGet st.metrics sessionId).getD (SessionMetrics.init sessionId)
  let merged :=
    { previous with
      sessionId := sessionId
      sttLatencyMs := delta.sttLatencyMs.orElse (fun _ => previous.sttLatencyMs)
      translationLatencyMs :=
        delta.translationLatencyMs.orElse (fun _ => previous.translationLatencyMs)
      ttsLatencyMs := delta.ttsLatencyMs.orElse (fun _ => previous.ttsLatencyMs)
      pipelineLatencyMs :=
        delta.pipelineLatencyMs.orElse (fun _ => previous.pipelineLatencyMs) }
  { st with metrics := mapSet st.metrics sessionId merged }

def reportEgressStats (st : OrchState) (sessionId : Nat) (queueSize : Nat)
    (droppedOldest : Bool) : OrchState :=
  let current := (mapGet st.metrics sessionId).getD (SessionMetrics.init sessionId)
  let egressQueuePeak := max (current.egressQueuePeak.getD 0) queueSize
  let egressDropCount := current.egressDropCount.getD 0 + (if droppedOldest then 1 else 0)
  let merged :=
    { current with
      egressQueuePeak := some egressQueuePeak
      egressDropCount := some egressDropCount }
  { st with metrics := mapSet st.metrics sessionId merged }

/-- Continuation of onAudioFrame past the unknown-session, passthrough and
rate-limit guards: record the frame timestamp, call STT, and run the
remaining pipeline stages as dictated by the oracle results. -/
def processAcceptedFrame (deps : OrchestratorDeps) (st : OrchState) (frame : AudioFrame)
    (oracle : FrameOracle) : OrchState :=
  let st1 := { st with
    lastFrameAtMs := mapSet st.lastFrameAtMs frame.sessionId frame.timestampMs }
  let st2 := { st1 with sttCalls := st1.sttCalls ++ [frame] }
  match oracle.transcript with
  | none =>
    trackMetrics st2 frame.sessionId
      { SessionMetrics.init frame.sessionId with sttLatencyMs := some oracle.sttLatencyMs }
  | some transcript =>
    if transcript.text.trim = "" then
      trackMetrics st2 frame.sessionId
        { SessionMetrics.init frame.sessionId with sttLatencyMs := some oracle.sttLatencyMs }
    else
      let st3 := emitEvent deps st2
        { type := .transcript, sessionId := frame.sessionId, atMs := transcript.timestampMs
          payload := .transcriptData transcript.text transcript.isFinal transcript.language }
      let st4 := { st3 with translateCalls := st3.translateCalls ++ [transcript] }
      match oracle.translation with
      | none =>
        trackMetrics st4 frame.sessionId
          { SessionMetrics.init frame.sessionId with
            sttLatencyMs := some oracle.sttLatencyMs
            translationLatencyMs := some oracle.translationLatencyMs }
      | some translation =>
        let st5 := emitEvent deps st4
          { type := .translation, sessionId := frame.sessionId
            atMs := translation.timestampMs
            payload := .translationData translation.text translation.sourceLanguage
              translation.targetLanguage }
        let st6 := { st5 with synthesizeCalls := st5.synthesizeCalls ++ [translation] }
        let st7 :=
          match oracle.tts with
          | some tts =>
            if deps.hasOnTtsChunk then { st6 with ttsDelivered := st6.ttsDelivered ++ [tts] }
            else st6
          | none => st6
        let pipelineLatencyMs :=
          oracle.sttLatencyMs + oracle.translationLatencyMs + oracle.ttsLatencyMs
        let st8 := trackMetrics st7 frame.sessionId
          { SessionMetrics.init frame.sessionId with
            sttLatencyMs := some oracle.sttLatencyMs
            translationLatencyMs := some oracle.translationLatencyMs
            ttsLatencyMs := some oracle.ttsLatencyMs
            pipelineLatencyMs := some pipelineLatencyMs }
        incrementMetric st8 frame.sessionId .translatedChunks

def onAudioFrame (deps : OrchestratorDeps) (st : OrchState) (frame : AudioFrame)
    (oracle : FrameOracle) : OrchState :=
  match st.sessionStore.get frame.sessionId with
  | none => st
  | some session =>
    if session.mode = .passthrough then
      incrementMetric st frame.sessionId .passthroughFrames
    else
      match mapGet st.lastFrameAtMs frame.sessionId with
      | some previousFrameTs =>
        if frame.timestampMs - previousFrameTs < deps.minFrameIntervalMs.getD 0 then
          markFrameDropped st frame.sessionId
        else processAcceptedFrame deps st frame oracle
      | none => processAcceptedFrame deps st frame oracle

def endSession (deps : OrchestratorDeps) (st : OrchState) (sessionId : Nat)
    (now : Int) : OrchState :=
  let r := st.sessionStore.updateState sessionId .ended
  match r.2 with
  | none => st
  | some session =>
    let st1 := { st with sessionStore := r.1 }
    emitEvent deps st1
      { type := .ended, sessionId := sessionId, atMs := now
        payload := .ended session.source (mapGet st.metrics sessionId) }

def listSessions (st : OrchState) : List CallSession :=
  st.sessionStore.all

end VoiceOrchestrator

/-- One dispatched orchestrator operation, for stating trace invariants. -/
inductive OrchOp
  | incoming (event : IncomingCallEvent) (now : Int)
  | control (sessionId : Nat) (patch : SessionControlUpdate) (now : Int)
  | frame (f : AudioFrame) (oracle : FrameOracle)
  | endCall (sessionId : Nat) (now : Int)
deriving DecidableEq, Repr

def applyOp (deps : OrchestratorDeps) (st : OrchState) : OrchOp → OrchState
  | .incoming e now => (VoiceOrchestrator.onIncomingCall deps st e now).1
  | .control sid patch now => (VoiceOrchestrator.updateSessionControl deps st sid patch now).1
  | .frame f oracle => VoiceOrchestrator.onAudioFrame deps st f oracle
  | .endCall sid now => VoiceOrchestrator.endSession deps st sid now

/-- Forward direction of the session lifecycle pending, then active, then
terminally ended or failed: a state never moves back and never leaves a
terminal state. -/
def stateForward (a b : SessionState) : Prop :=
  a = b ∨ a = .pending ∨ (a = .active ∧ (b = .ended ∨ b = .failed))

instance (a b : SessionState) : Decidable (stateForward a b) := by
  unfold stateForward
  infer_instance

/-- Invariant of every reachable orchestrator state: no stored session is
failed (nothing in the pipeline sources ever assigns the failed state) and
every stored id was minted below the counter. -/
def OrchInv (st : OrchState) : Prop :=
  ∀ p ∈ st.sessionStore.sessions,
    p.2.state ≠ SessionState.failed ∧ p.1 < st.sessionStore.nextId

instance (st : OrchState) : Decidable (OrchInv st) := by
  unfold OrchInv
  infer_instance

/-- Rate-limited dropped-frame count of a session, read off the metrics map. -/
def droppedCount (st : OrchState) (sid : Nat) : Nat :=
  (((mapGet st.metrics sid).getD (SessionMetrics.init sid)).droppedFrames).getD 0

/-- Passthrough frame count of a session, read off the metrics map. -/
def passthroughCount (st : OrchState) (sid : Nat) : Nat :=
  (((mapGet st.metrics sid).getD (SessionMetrics.init sid)).passthroughFrames).getD 0

structure EnqueueResult where
  queueSize : Nat
  droppedOldest : Bool
deriving DecidableEq, Repr

/-- Modelled from the spec: the current pipeline/egress-store.ts module is
absent from the available sources (http.ts and index.ts import it; only an
older inline EgressStore revision is present).  Per the spec, enqueue
returns the resulting queue size together with the droppedOldest flag,
true exactly when the enqueue overflowed the bound and the oldest chunk
was shifted off. -/
def EgressStore.enqueueReporting (st : EgressStore) (chunk : TtsChunk) :
    EgressStore × EnqueueResult :=
  let queue := (mapGet st.queues chunk.sessionId).getD []
  let pushed := queue ++ [chunk]
  let overflow : Bool := decide (st.maxQueuePerSession < pushed.length)
  let bounded := if st.maxQueuePerSession < pushed.length then pushed.tail else pushed
  ({ st with queues := mapSet st.queues chunk.sessionId bounded },
   { queueSize := bounded.length, droppedOldest := overflow })

/-- Modelled from the spec: clear(sessionId) of the absent current
pipeline/egress-store.ts removes all chunks queued for the session (the
POST /asterisk/end handler in http.ts calls it after endSession). -/
def EgressStore.clear (st : EgressStore) (sessionId : Nat) : EgressStore :=
  { st with queues := mapErase st.queues sessionId }

/-- Core of the POST /asterisk/end route of vps-gateway/src/server/http.ts
after validation and session resolution: end the session, then clear its
egress queue. -/
def handleAsteriskEnd (deps : OrchestratorDeps) (orch : OrchState) (egress : EgressStore)
    (sessionId : Nat) (now : Int) : OrchState × EgressStore :=
  (VoiceOrchestrator.endSession deps orch sessionId now, egress.clear sessionId)

/-! External event bridge, integrations/openclaw.ts.  The available
revision of the module predates the idempotency key, so the key derivation
is modelled from the spec. -/

def SessionEventType.label : SessionEventType → String
  | .started => "session.started"
  | .ended => "session.ended"
  | .controlUpdated => "session.control.updated"
  | .transcript => "session.transcript"
  | .translation => "session.translation"

def LanguageCode.label : LanguageCode → String
  | .en => "en"
  | .es => "es"

def SessionMode.label : SessionMode → String
  | .private_translation => "private_translation"
  | .passthrough => "passthrough"

def optNatStr : Option Nat → String
  | none => "-"
  | some n => toString n

def optIntStr : Option Int → String
  | none => "-"
  | some n => toString n

def metricsCanonical (m : SessionMetrics) : String :=
  toString m.sessionId ++ "|" ++ optIntStr m.sttLatencyMs ++ "|"
    ++ optIntStr m.translationLatencyMs ++ "|" ++ optIntStr m.ttsLatencyMs ++ "|"
    ++ optIntStr m.pipelineLatencyMs ++ "|" ++ optNatStr m.droppedFrames ++ "|"
    ++ optNatStr m.passthroughFrames ++ "|" ++ optNatStr m.translatedChunks ++ "|"
    ++ optNatStr m.egressDropCount ++ "|" ++ optNatStr m.egressQueuePeak

/-- Canonical serialization of a session-event payload, the stable basis
of the payload hash. -/
def payloadCanonical : EventPayload → String
  | .started source inboundCaller targetPhoneE164 mode sourceLanguage targetLanguage =>
    "started|" ++ source.toKey ++ "|" ++ inboundCaller ++ "|" ++ targetPhoneE164 ++ "|"
      ++ mode.label ++ "|" ++ sourceLanguage.label ++ "|" ++ targetLanguage.label
  | .controlUpdated mode sourceLanguage targetLanguage =>
    "control|" ++ mode.label ++ "|" ++ sourceLanguage.label ++ "|" ++ targetLanguage.label
  | .transcriptData text isFinal language =>
    "transcript|" ++ text ++ "|" ++ (if isFinal then "1" else "0") ++ "|" ++ language.label
  | .translationData text sourceLanguage targetLanguage =>
    "translation|" ++ text ++ "|" ++ sourceLanguage.label ++ "|" ++ targetLanguage.label
  | .ended source metrics =>
    "ended|" ++ source.toKey ++ "|"
      ++ (match metrics with | none => "-" | some m => metricsCanonical m)

/-- Stable string hash (a deterministic pure function of the canonical
payload text). -/
def stableHash (s : String) : Nat :=
  s.foldl (fun a c => (a * 131 + c.toNat) % 1000000007) 7

/-- Modelled from the spec: the deterministic idempotency key of a
session-event envelope, derived from event.type, sessionId, atMs and the
stable hash of the payload (the bridge test expects the evt: shape). -/
def sessionEventIdempotencyKey (e : SessionEvent) : String :=
  "evt:" ++ e.type.label ++ ":" ++ toString e.sessionId ++ ":" ++ toString e.atMs
    ++ ":" ++ toString (stableHash (payloadCanonical e.payload))

structure OpenClawEnvelope where
  type : String
  idempotencyKey : String
  atMs : Int
  sessionEvent : Option SessionEvent
  commandText : Option String
deriving DecidableEq, Repr

/-- Modelled from the spec: publishSessionEvent wraps the event in an
envelope whose atMs is the enqueue time and whose idempotency key is the
deterministic session-event key. -/
def mkSessionEventEnvelope (e : SessionEvent) (now : Int) : OpenClawEnvelope :=
  { type := "session_event", idempotencyKey := sessionEventIdempotencyKey e
    atMs := now, sessionEvent := some e, commandText := none }

/-! Startup configuration, config.ts.  The available config.ts revision
predates the outbound-target validation, so loadConfig's outbound-target
handling is modelled from the spec. -/

/-- Match for the E.164 shape required of the outbound target: a plus
sign, one digit 1 to 9, then 7 to 14 further digits. -/
def isValidE164 (s : String) : Bool :=
  match s.data with
  | '+' :: d :: ds =>
    decide ('1' ≤ d) && decide (d ≤ '9') && ds.all Char.isDigit
      && decide (7 ≤ ds.length) && decide (ds.length ≤ 14)
  | _ => false

/-- Modelled from the spec: the outbound-target handling of the absent
current loadConfig.  It reads OUTBOUND_TARGET_E164 with legacy fallback
DESTINATION_PHONE_E164 and aborts startup (throws, modelled as
Except.error) when the resulting value fails E.164 validation, never
substituting a default. -/
def loadConfigOutboundTarget (outboundTargetEnv legacyEnv : Option String) :
    Except String String :=
  if isValidE164 ((outboundTargetEnv.orElse (fun _ => legacyEnv)).getD "") then
    Except.ok ((outboundTargetEnv.orElse (fun _ => legacyEnv)).getD "")
  else
    Except.error ("Invalid OUTBOUND_TARGET_E164: "
      ++ (outboundTargetEnv.orElse (fun _ => legacyEnv)).getD "")

/-! Concrete fixtures used by the evaluation witnesses. -/

def demoDeps : OrchestratorDeps :=
  { outboundTargetE164 := "+15555550100", minFrameIntervalMs := some 100
    hasOnTtsChunk := true, hasOnSessionEvent := true }

def noLimitDeps : OrchestratorDeps :=
  { outboundTargetE164 := "+15555550100", minFrameIntervalMs := none
    hasOnTtsChunk := false, hasOnSessionEvent := false }

def demoEvent : IncomingCallEvent :=
  { source := .twilio, externalCallId := "CA123", sentFrom := "+15551234567"
    sentTo := "+18005550199", receivedAtMs := 5 }

def demoState : OrchState :=
  (VoiceOrchestrator.onIncomingCall demoDeps OrchState.initial demoEvent 6).1

def demoSession : CallSession :=
  (VoiceOrchestrator.onIncomingCall demoDeps OrchState.initial demoEvent 6).2

def mkFrame (t : Int) : AudioFrame :=
  { sessionId := 0, source := .twilio, sampleRateHz := 8000, encoding := .mulaw
    timestampMs := t, payload := [0] }

def silentOracle : FrameOracle :=
  { transcript := none, sttLatencyMs := 0, translation := none, translationLatencyMs := 0
    tts := none, ttsLatencyMs := 0 }

def noLimitState : OrchState :=
  (VoiceOrchestrator.onIncomingCall noLimitDeps OrchState.initial demoEvent 0).1

def passthroughPatch : SessionControlUpdate :=
  { mode := some .passthrough, sourceLanguage := none, targetLanguage := none }

def passthroughState : OrchState :=
  (VoiceOrchestrator.updateSessionControl demoDeps demoState 0 passthroughPatch 7).1

/-- Second orchestrator state of the C4 counterexample run: with the rate
limiter unset, a frame at timestamp 10 is accepted and then a frame at
timestamp 5 arrives for the same session. -/
def rlState2 : OrchState :=
  VoiceOrchestrator.onAudioFrame noLimitDeps
    (VoiceOrchestrator.onAudioFrame noLimitDeps noLimitState (mkFrame 10) silentOracle)
    (mkFrame 5) silentOracle

/-- Demo state with a recorded last-accepted-frame timestamp of 1000. -/
def c10State : OrchState :=
  VoiceOrchestrator.onAudioFrame demoDeps demoState (mkFrame 1000) silentOracle

/-- Fixture event for the C8 witness. -/
def demoSessionEvent : SessionEvent :=
  { type := SessionEventType.started, sessionId := 0, atMs := 6
    payload := EventPayload.started IngressSource.twilio "+15551234567" "+15555550100"
      SessionMode.private_translation LanguageCode.es LanguageCode.en }

/-! Theorems. -/

theorem mapGet_set_self {κ α : Type} [DecidableEq κ] (m : List (κ × α)) (k : κ) (v : α) :
    mapGet (mapSet m k v) k = some v := by
  induction m with
  | nil => simp [mapGet, mapSet]
  | cons p rest ih =>
    obtain ⟨k0, v0⟩ := p
    by_cases h : k = k0 <;> simp [mapGet, mapSet, h, ih]

theorem mapGet_set_ne {κ α : Type} [DecidableEq κ] (m : List (κ × α)) (k k1 : κ) (v : α)
    (h : k1 ≠ k) : mapGet (mapSet m k v) k1 = mapGet m k1 := by
  induction m with
  | nil => simp [mapGet, mapSet, h]
  | cons p rest ih =>
    obtain ⟨k0, v0⟩ := p
    by_cases hk : k = k0
    · subst hk
      simp [mapGet, mapSet, h]
    · by_cases hk1 : k1 = k0 <;> simp [mapGet, mapSet, hk, hk1, ih]

theorem mem_mapSet {κ α : Type} [DecidableEq κ] (m : List (κ × α)) (k : κ) (v : α)
    (p : κ × α) (hp : p ∈ mapSet m k v) : p = (k, v) ∨ p ∈ m := by
  induction m with
  | nil => simpa [mapSet] using hp
  | cons q rest ih =>
    obtain ⟨k0, v0⟩ := q
    by_cases hk : k = k0
    · simp [mapSet, hk] at hp
      rcases hp with h | h
      · exact Or.inl (by simp [h, hk])
      · exact Or.inr (by simp [h])
    · simp [mapSet, hk] at hp
      rcases hp with h | h
      · exact Or.inr (by simp [h])
      · rcases ih h with h1 | h1
        · exact Or.inl h1
        · exact Or.inr (by simp [h1])

theorem dequeue_snd (st : EgressStore) (sid : Nat) :
    (st.dequeue sid).2 = ((mapGet st.queues sid).getD []).head? := by
  unfold EgressStore.dequeue
  cases hm : mapGet st.queues sid with
  | none => rfl
  | some q =>
    cases q with
    | nil => rfl
    | cons c rest => by_cases hr : rest.isEmpty <;> simp [hr]

theorem enqueue_queues_self (st : EgressStore) (c : TtsChunk) :
    mapGet (st.enqueue c).queues c.sessionId =
      some (queueStep st.maxQueuePerSession ((mapGet st.queues c.sessionId).getD []) c) := by
  simp [EgressStore.enqueue, queueStep, mapGet_set_self]

theorem enqueue_max_eq (st : EgressStore) (c : TtsChunk) :
    (st.enqueue c).maxQueuePerSession = st.maxQueuePerSession := rfl

theorem foldl_queueStep_eq (B : Nat) (hB : 1 ≤ B) :
    ∀ (cs : List TtsChunk) (q : List TtsChunk), q.length ≤ B →
      List.foldl (queueStep B) q cs = (q ++ cs).drop (q.length + cs.length - B) := by
  intro cs
  induction cs with
  | nil =>
    intro q hq
    simp [Nat.sub_eq_zero_of_le hq]
  | cons c cs ih =>
    intro q hq
    rcases Nat.lt_or_ge q.length B with hlt | hge
    · have hstep : queueStep B q c = q ++ [c] := by
        simp only [queueStep]
        rw [if_neg]
        simp
        omega
      have hlen : (q ++ [c]).length ≤ B := by
        simp
        omega
      have := ih (q ++ [c]) hlen
      simp only [List.foldl_cons, hstep, this]
      have harith : (q ++ [c]).length + cs.length - B = q.length + (c :: cs).length - B := by
        simp
        omega
      rw [harith, List.append_assoc]
      simp
    · have heq : q.length = B := Nat.le_antisymm hq hge
      cases q with
      | nil =>
        exfalso
        simp at heq
        omega
      | cons a q0 =>
        have hstep : queueStep B (a :: q0) c = q0 ++ [c] := by
          simp only [queueStep]
          rw [if_pos]
          · simp
          · simp
            simp at heq
            omega
        have hlen : (q0 ++ [c]).length ≤ B := by
          simp at heq
          simp
          omega
        have := ih (q0 ++ [c]) hlen
        simp only [List.foldl_cons, hstep, this]
        have h1 : (q0 ++ [c]).length + cs.length - B = cs.length := by
          simp at heq
          simp
          omega
        have h2 : (a :: q0).length + (c :: cs).length - B = cs.length + 1 := by
          simp at heq
          simp
          omega
        rw [h1, h2, List.append_assoc]
        simp

theorem foldl_enqueue_queue (B : Nat) (sid : Nat) :
    ∀ (cs : List TtsChunk) (st : EgressStore), st.maxQueuePerSession = B →
      (∀ c ∈ cs, c.sessionId = sid) →
      (mapGet (List.foldl EgressStore.enqueue st cs).queues sid).getD [] =
        List.foldl (queueStep B) ((mapGet st.queues sid).getD []) cs := by
  intro cs
  induction cs with
  | nil => intro st hmax hcs; rfl
  | cons c cs ih =>
    intro st hmax hcs
    have hc : c.sessionId = sid := hcs c (by simp)
    have hrest : ∀ d ∈ cs, d.sessionId = sid := fun d hd => hcs d (by simp [hd])
    have hmax1 : (st.enqueue c).maxQueuePerSession = B := by rw [enqueue_max_eq, hmax]
    have := ih (st.enqueue c) hmax1 hrest
    simp only [List.foldl_cons, this]
    have hq : mapGet (st.enqueue c).queues sid =
        some (queueStep B ((mapGet st.queues sid).getD []) c) := by
      rw [← hc, enqueue_queues_self, hmax, hc]
    rw [hq]
    rfl

theorem foldl_enqueue_max (cs : List TtsChunk) :
    ∀ st : EgressStore,
      (List.foldl EgressStore.enqueue st cs).maxQueuePerSession = st.maxQueuePerSession := by
  induction cs with
  | nil => intro st; rfl
  | cons c cs ih =>
    intro st
    simp only [List.foldl_cons]
    rw [ih (st.enqueue c), enqueue_max_eq]

/-- C3: for an EgressStore constructed with bound B (at least 1, the
configured minimum) and any session, after any sequence of N enqueues of
chunks of that session with no intervening dequeues, the stored size is at
most B, the queue holds exactly the last min(N, B) chunks in enqueue
order, dequeue returns the head of that remainder (FIFO), and an enqueue
onto a full queue drops the oldest chunk while keeping the new one. -/
theorem egress_enqueue_bounded_fifo (B : Nat) (hB : 1 ≤ B) (sid : Nat) (cs : List TtsChunk)
    (hcs : ∀ c ∈ cs, c.sessionId = sid) :
    EgressStore.size (List.foldl EgressStore.enqueue (EgressStore.mk B []) cs) sid ≤ B ∧
    (mapGet (List.foldl EgressStore.enqueue (EgressStore.mk B []) cs).queues sid).getD []
      = cs.drop (cs.length - B) ∧
    ((List.foldl EgressStore.enqueue (EgressStore.mk B []) cs).dequeue sid).2
      = (cs.drop (cs.length - B)).head? ∧
    (∀ d : TtsChunk, d.sessionId = sid →
      EgressStore.size (List.foldl EgressStore.enqueue (EgressStore.mk B []) cs) sid = B →
      (mapGet ((List.foldl EgressStore.enqueue (EgressStore.mk B []) cs).enqueue d).queues sid).getD []
        = ((mapGet (List.foldl EgressStore.enqueue (EgressStore.mk B []) cs).queues sid).getD []).tail
            ++ [d]) := by
  have hchar : (mapGet (List.foldl EgressStore.enqueue (EgressStore.mk B []) cs).queues sid).getD []
      = cs.drop (cs.length - B) := by
    rw [foldl_enqueue_queue B sid cs (EgressStore.mk B []) rfl hcs]
    have h0 : (mapGet (EgressStore.mk B []).queues sid).getD [] = ([] : List TtsChunk) := rfl
    rw [h0, foldl_queueStep_eq B hB cs [] (by simp)]
    simp
  have hmaxB : (List.foldl EgressStore.enqueue (EgressStore.mk B []) cs).maxQueuePerSession = B :=
    foldl_enqueue_max cs (EgressStore.mk B [])
  refine ⟨?_, hchar, ?_, ?_⟩
  · unfold EgressStore.size
    rw [hchar, List.length_drop]
    omega
  · rw [dequeue_snd, hchar]
  · intro d hd hsize
    have hq : mapGet ((List.foldl EgressStore.enqueue (EgressStore.mk B []) cs).enqueue d).queues sid
        = some (queueStep B
            ((mapGet (List.foldl EgressStore.enqueue (EgressStore.mk B []) cs).queues sid).getD [])
            d) := by
      rw [← hd]
      rw [enqueue_queues_self]
      rw [hmaxB, hd]
    rw [hq]
    unfold EgressStore.size at hsize
    generalize hgen :
      (mapGet (List.foldl EgressStore.enqueue (EgressStore.mk B []) cs).queues sid).getD [] = q
    rw [hgen] at hsize
    cases q with
    | nil =>
      exfalso
      simp at hsize
      omega
    | cons a q0 =>
      simp only [queueStep, Option.getD_some]
      rw [if_pos]
      · simp
      · simp at hsize
        simp
        omega

/-- Evaluation witness for C3 at bound 2 with three enqueued chunks. -/
theorem egress_enqueue_bounded_fifo_witness :
    (1 ≤ 2 ∧ ∀ c ∈ [sampleChunk 1 1, sampleChunk 1 2, sampleChunk 1 3],
        TtsChunk.sessionId c = 1) ∧
    (EgressStore.size
        (List.foldl EgressStore.enqueue (EgressStore.mk 2 [])
          [sampleChunk 1 1, sampleChunk 1 2, sampleChunk 1 3]) 1 ≤ 2 ∧
      (mapGet (List.foldl EgressStore.enqueue (EgressStore.mk 2 [])
          [sampleChunk 1 1, sampleChunk 1 2, sampleChunk 1 3]).queues 1).getD []
        = [sampleChunk 1 1, sampleChunk 1 2, sampleChunk 1 3].drop
            ([sampleChunk 1 1, sampleChunk 1 2, sampleChunk 1 3].length - 2) ∧
      ((List.foldl EgressStore.enqueue (EgressStore.mk 2 [])
          [sampleChunk 1 1, sampleChunk 1 2, sampleChunk 1 3]).dequeue 1).2
        = ([sampleChunk 1 1, sampleChunk 1 2, sampleChunk 1 3].drop
            ([sampleChunk 1 1, sampleChunk 1 2, sampleChunk 1 3].length - 2)).head? ∧
      (∀ d : TtsChunk, d.sessionId = 1 →
        EgressStore.size
          (List.foldl EgressStore.enqueue (EgressStore.mk 2 [])
            [sampleChunk 1 1, sampleChunk 1 2, sampleChunk 1 3]) 1 = 2 →
        (mapGet ((List.foldl EgressStore.enqueue (EgressStore.mk 2 [])
            [sampleChunk 1 1, sampleChunk 1 2, sampleChunk 1 3]).enqueue d).queues 1).getD []
          = ((mapGet (List.foldl EgressStore.enqueue (EgressStore.mk 2 [])
              [sampleChunk 1 1, sampleChunk 1 2, sampleChunk 1 3]).queues 1).getD []).tail
              ++ [d])) :=
  ⟨⟨by decide, by decide⟩,
    egress_enqueue_bounded_fifo 2 (by decide) 1
      [sampleChunk 1 1, sampleChunk 1 2, sampleChunk 1 3] (by decide)⟩

theorem emitEvent_sessionStore (deps : OrchestratorDeps) (st : OrchState) (e : SessionEvent) :
    (VoiceOrchestrator.emitEvent deps st e).sessionStore = st.sessionStore := by
  unfold VoiceOrchestrator.emitEvent
  split <;> rfl

theorem mintSession_id (event : IncomingCallEvent) (target : String) (id : Nat) :
    (SessionStore.mintSession event target id).id = id := rfl

theorem onIncomingCall_hit (deps : OrchestratorDeps) (st : OrchState)
    (event : IncomingCallEvent) (now : Int) (existing : CallSession)
    (hex : st.sessionStore.getByExternal event.source.toKey event.externalCallId
      = some existing) :
    VoiceOrchestrator.onIncomingCall deps st event now = (st, existing) := by
  unfold VoiceOrchestrator.onIncomingCall
  rw [hex]

/-- C1: dispatching the same incoming-call event a second time returns a
session with the same id, changes nothing in the orchestrator state, and
in particular does not increase the number of stored sessions. -/
theorem onIncomingCall_idempotent (deps : OrchestratorDeps) (st : OrchState)
    (event : IncomingCallEvent) (now1 now2 : Int) :
    (VoiceOrchestrator.onIncomingCall deps
        (VoiceOrchestrator.onIncomingCall deps st event now1).1 event now2).2.id
      = (VoiceOrchestrator.onIncomingCall deps st event now1).2.id ∧
    (VoiceOrchestrator.onIncomingCall deps
        (VoiceOrchestrator.onIncomingCall deps st event now1).1 event now2).1
      = (VoiceOrchestrator.onIncomingCall deps st event now1).1 ∧
    ((VoiceOrchestrator.onIncomingCall deps
        (VoiceOrchestrator.onIncomingCall deps st event now1).1 event now2).1
          ).sessionStore.sessions.length
      = ((VoiceOrchestrator.onIncomingCall deps st event now1).1).sessionStore.sessions.length := by
  cases hex : st.sessionStore.getByExternal event.source.toKey event.externalCallId with
  | some existing =>
    rw [onIncomingCall_hit deps st event now1 existing hex]
    rw [onIncomingCall_hit deps st event now2 existing hex]
    exact ⟨rfl, rfl, rfl⟩
  | none =>
    have hfound : (VoiceOrchestrator.onIncomingCall deps st event now1).1.sessionStore.getByExternal
        event.source.toKey event.externalCallId
        = some (VoiceOrchestrator.onIncomingCall deps st event now1).2 := by
      unfold VoiceOrchestrator.onIncomingCall
      rw [hex]
      simp only [emitEvent_sessionStore]
      unfold SessionStore.createFromIncoming SessionStore.updateState SessionStore.getByExternal
      simp only [mintSession_id, mapGet_set_self, Option.getD_some]
    rw [onIncomingCall_hit deps (VoiceOrchestrator.onIncomingCall deps st event now1).1 event
      now2 (VoiceOrchestrator.onIncomingCall deps st event now1).2 hfound]
    exact ⟨rfl, rfl, rfl⟩

theorem updateControl_found (st : SessionStore) (id : Nat) (patch : SessionControlUpdate)
    (s : CallSession) (hget : mapGet st.sessions id = some s) :
    st.updateControl id patch =
      if s.state = SessionState.pending ∨ s.state = SessionState.active then
        ({ st with sessions := mapSet st.sessions id (SessionStore.applyControlPatch s patch) },
          some (SessionStore.applyControlPatch s patch))
      else (st, none) := by
  unfold SessionStore.updateControl
  rw [hget]

/-- C2: updateSessionControl applies the patch's validated mode and
language fields to the stored session through the session store's
updateControl operation, emits a session.control.updated event carrying
the updated values, and returns the updated session; while the session is
ended it has no effect and returns nothing. -/
theorem updateSessionControl_spec (deps : OrchestratorDeps) (st : OrchState)
    (sessionId : Nat) (patch : SessionControlUpdate) (now : Int) (s : CallSession)
    (hs : VoiceOrchestrator.getSession st sessionId = some s) :
    (s.state = SessionState.ended →
      VoiceOrchestrator.updateSessionControl deps st sessionId patch now = (st, none)) ∧
    (deps.hasOnSessionEvent = true → s.state = SessionState.pending ∨ s.state = SessionState.active →
      (VoiceOrchestrator.updateSessionControl deps st sessionId patch now).2
        = some (SessionStore.applyControlPatch s patch) ∧
      VoiceOrchestrator.getSession
          (VoiceOrchestrator.updateSessionControl deps st sessionId patch now).1 sessionId
        = some (SessionStore.applyControlPatch s patch) ∧
      (VoiceOrchestrator.updateSessionControl deps st sessionId patch now).1.events
        = st.events ++
            [{ type := SessionEventType.controlUpdated, sessionId := sessionId, atMs := now
               payload := EventPayload.controlUpdated
                 (SessionStore.applyControlPatch s patch).mode
                 (SessionStore.applyControlPatch s patch).sourceLanguage
                 (SessionStore.applyControlPatch s patch).targetLanguage }]) := by
  have hget : mapGet st.sessionStore.sessions sessionId = some s := hs
  have hchar := updateControl_found st.sessionStore sessionId patch s hget
  constructor
  · intro hended
    have hcond : ¬(s.state = SessionState.pending ∨ s.state = SessionState.active) := by
      rw [hended]
      intro h
      rcases h with h | h <;> cases h
    unfold VoiceOrchestrator.updateSessionControl
    rw [hchar, if_neg hcond]
  · intro hevt hstate
    unfold VoiceOrchestrator.updateSessionControl
    rw [hchar, if_pos hstate]
    unfold VoiceOrchestrator.emitEvent
    rw [hevt]
    refine ⟨rfl, ?_, by simp⟩
    show mapGet (mapSet st.sessionStore.sessions sessionId
        (SessionStore.applyControlPatch s patch)) sessionId
      = some (SessionStore.applyControlPatch s patch)
    exact mapGet_set_self st.sessionStore.sessions sessionId (SessionStore.applyControlPatch s patch)

/-- Evaluation witness for C2 on the demo session, patched to passthrough
mode while active. -/
theorem updateSessionControl_spec_witness :
    (VoiceOrchestrator.getSession demoState 0 = some demoSession) ∧
    ((demoSession.state = SessionState.ended →
      VoiceOrchestrator.updateSessionControl demoDeps demoState 0 passthroughPatch 7
        = (demoState, none)) ∧
    (demoDeps.hasOnSessionEvent = true →
      demoSession.state = SessionState.pending ∨ demoSession.state = SessionState.active →
      (VoiceOrchestrator.updateSessionControl demoDeps demoState 0 passthroughPatch 7).2
        = some (SessionStore.applyControlPatch demoSession passthroughPatch) ∧
      VoiceOrchestrator.getSession
          (VoiceOrchestrator.updateSessionControl demoDeps demoState 0 passthroughPatch 7).1 0
        = some (SessionStore.applyControlPatch demoSession passthroughPatch) ∧
      (VoiceOrchestrator.updateSessionControl demoDeps demoState 0 passthroughPatch 7).1.events
        = demoState.events ++
            [{ type := SessionEventType.controlUpdated, sessionId := 0, atMs := 7
               payload := EventPayload.controlUpdated
                 (SessionStore.applyControlPatch demoSession passthroughPatch).mode
                 (SessionStore.applyControlPatch demoSession passthroughPatch).sourceLanguage
                 (SessionStore.applyControlPatch demoSession passthroughPatch).targetLanguage }])) :=
  ⟨by decide, updateSessionControl_spec demoDeps demoState 0 passthroughPatch 7 demoSession
    (by decide)⟩

theorem getCounter_setCounter_self (m : SessionMetrics) (f : CounterField) (n : Nat) :
    (m.setCounter f n).getCounter f = some n := by
  cases f <;> rfl

theorem incrementMetric_counter_self (st : OrchState) (sid : Nat) (f : CounterField) :
    ((mapGet (VoiceOrchestrator.incrementMetric st sid f).metrics sid).getD
        (SessionMetrics.init sid)).getCounter f
      = some ((((mapGet st.metrics sid).getD (SessionMetrics.init sid)).getCounter f).getD 0
          + 1) := by
  unfold VoiceOrchestrator.incrementMetric
  rw [mapGet_set_self]
  rw [Option.getD_some]
  rw [getCounter_setCounter_self]

theorem incrementMetric_passthroughCount (st : OrchState) (sid : Nat) :
    passthroughCount (VoiceOrchestrator.incrementMetric st sid CounterField.passthroughFrames) sid
      = passthroughCount st sid + 1 := by
  have h := incrementMetric_counter_self st sid CounterField.passthroughFrames
  unfold passthroughCount
  have hp : ∀ m : SessionMetrics, m.getCounter CounterField.passthroughFrames
      = m.passthroughFrames := fun m => rfl
  rw [hp] at h
  rw [h]
  rfl

/-- C5: a frame delivered for a passthrough-mode session is counted in
passthroughFrames and short-circuits the pipeline: the resulting state is
exactly the passthroughFrames increment, so no STT, MT or TTS invocation
and no TTS delivery happens, and the counter grows by exactly one per
delivered frame. -/
theorem onAudioFrame_passthrough (deps : OrchestratorDeps) (st : OrchState)
    (frame : AudioFrame) (oracle : FrameOracle) (s : CallSession)
    (hs : st.sessionStore.get frame.sessionId = some s)
    (hmode : s.mode = SessionMode.passthrough) :
    VoiceOrchestrator.onAudioFrame deps st frame oracle
      = VoiceOrchestrator.incrementMetric st frame.sessionId CounterField.passthroughFrames ∧
    (VoiceOrchestrator.onAudioFrame deps st frame oracle).sttCalls = st.sttCalls ∧
    (VoiceOrchestrator.onAudioFrame deps st frame oracle).translateCalls = st.translateCalls ∧
    (VoiceOrchestrator.onAudioFrame deps st frame oracle).synthesizeCalls = st.synthesizeCalls ∧
    (VoiceOrchestrator.onAudioFrame deps st frame oracle).ttsDelivered = st.ttsDelivered ∧
    passthroughCount (VoiceOrchestrator.onAudioFrame deps st frame oracle) frame.sessionId
      = passthroughCount st frame.sessionId + 1 := by
  have hmain : VoiceOrchestrator.onAudioFrame deps st frame oracle
      = VoiceOrchestrator.incrementMetric st frame.sessionId CounterField.passthroughFrames := by
    unfold VoiceOrchestrator.onAudioFrame
    rw [hs]
    simp only [hmode, if_pos]
  refine ⟨hmain, ?_, ?_, ?_, ?_, ?_⟩ <;> rw [hmain]
  · rfl
  · rfl
  · rfl
  · rfl
  · exact incrementMetric_passthroughCount st frame.sessionId

/-- Evaluation witness for C5 on the demo session after switching it to
passthrough mode. -/
theorem onAudioFrame_passthrough_witness :
    (passthroughState.sessionStore.get (mkFrame 20).sessionId
        = some (SessionStore.applyControlPatch demoSession passthroughPatch) ∧
      (SessionStore.applyControlPatch demoSession passthroughPatch).mode
        = SessionMode.passthrough) ∧
    (VoiceOrchestrator.onAudioFrame demoDeps passthroughState (mkFrame 20) silentOracle
      = VoiceOrchestrator.incrementMetric passthroughState (mkFrame 20).sessionId
          CounterField.passthroughFrames ∧
    (VoiceOrchestrator.onAudioFrame demoDeps passthroughState (mkFrame 20) silentOracle).sttCalls
      = passthroughState.sttCalls ∧
    (VoiceOrchestrator.onAudioFrame demoDeps passthroughState (mkFrame 20)
        silentOracle).translateCalls = passthroughState.translateCalls ∧
    (VoiceOrchestrator.onAudioFrame demoDeps passthroughState (mkFrame 20)
        silentOracle).synthesizeCalls = passthroughState.synthesizeCalls ∧
    (VoiceOrchestrator.onAudioFrame demoDeps passthroughState (mkFrame 20)
        silentOracle).ttsDelivered = passthroughState.ttsDelivered ∧
    passthroughCount (VoiceOrchestrator.onAudioFrame demoDeps passthroughState (mkFrame 20)
        silentOracle) (mkFrame 20).sessionId
      = passthroughCount passthroughState (mkFrame 20).sessionId + 1) :=
  ⟨⟨by decide, by decide⟩,
    onAudioFrame_passthrough demoDeps passthroughState (mkFrame 20) silentOracle
      (SessionStore.applyControlPatch demoSession passthroughPatch) (by decide) (by decide)⟩

theorem incrementMetric_sessionStore (st : OrchState) (sid : Nat) (f : CounterField) :
    (VoiceOrchestrator.incrementMetric st sid f).sessionStore = st.sessionStore := rfl

theorem incrementMetric_lastFrame (st : OrchState) (sid : Nat) (f : CounterField) :
    (VoiceOrchestrator.incrementMetric st sid f).lastFrameAtMs = st.lastFrameAtMs := rfl

theorem incrementMetric_sttCalls (st : OrchState) (sid : Nat) (f : CounterField) :
    (VoiceOrchestrator.incrementMetric st sid f).sttCalls = st.sttCalls := rfl

theorem trackMetrics_sessionStore (st : OrchState) (sid : Nat) (delta : SessionMetrics) :
    (VoiceOrchestrator.trackMetrics st sid delta).sessionStore = st.sessionStore := rfl

theorem trackMetrics_lastFrame (st : OrchState) (sid : Nat) (delta : SessionMetrics) :
    (VoiceOrchestrator.trackMetrics st sid delta).lastFrameAtMs = st.lastFrameAtMs := rfl

theorem trackMetrics_sttCalls (st : OrchState) (sid : Nat) (delta : SessionMetrics) :
    (VoiceOrchestrator.trackMetrics st sid delta).sttCalls = st.sttCalls := rfl

theorem emitEvent_lastFrame (deps : OrchestratorDeps) (st : OrchState) (e : SessionEvent) :
    (VoiceOrchestrator.emitEvent deps st e).lastFrameAtMs = st.lastFrameAtMs := by
  unfold VoiceOrchestrator.emitEvent
  split <;> rfl

theorem emitEvent_sttCalls (deps : OrchestratorDeps) (st : OrchState) (e : SessionEvent) :
    (VoiceOrchestrator.emitEvent deps st e).sttCalls = st.sttCalls := by
  unfold VoiceOrchestrator.emitEvent
  split <;> rfl

theorem emitEvent_metrics (deps : OrchestratorDeps) (st : OrchState) (e : SessionEvent) :
    (VoiceOrchestrator.emitEvent deps st e).metrics = st.metrics := by
  unfold VoiceOrchestrator.emitEvent
  split <;> rfl

theorem processAcceptedFrame_sessionStore (deps : OrchestratorDeps) (st : OrchState)
    (frame : AudioFrame) (oracle : FrameOracle) :
    (VoiceOrchestrator.processAcceptedFrame deps st frame oracle).sessionStore
      = st.sessionStore := by
  unfold VoiceOrchestrator.processAcceptedFrame
  repeat' split
  all_goals
    simp [VoiceOrchestrator.trackMetrics, VoiceOrchestrator.incrementMetric,
      emitEvent_sessionStore]

theorem processAcceptedFrame_lastFrame (deps : OrchestratorDeps) (st : OrchState)
    (frame : AudioFrame) (oracle : FrameOracle) :
    (VoiceOrchestrator.processAcceptedFrame deps st frame oracle).lastFrameAtMs
      = mapSet st.lastFrameAtMs frame.sessionId frame.timestampMs := by
  unfold VoiceOrchestrator.processAcceptedFrame
  repeat' split
  all_goals
    simp [VoiceOrchestrator.trackMetrics, VoiceOrchestrator.incrementMetric,
      emitEvent_lastFrame]

theorem processAcceptedFrame_sttCalls (deps : OrchestratorDeps) (st : OrchState)
    (frame : AudioFrame) (oracle : FrameOracle) :
    (VoiceOrchestrator.processAcceptedFrame deps st frame oracle).sttCalls
      = st.sttCalls ++ [frame] := by
  unfold VoiceOrchestrator.processAcceptedFrame
  repeat' split
  all_goals
    simp [VoiceOrchestrator.trackMetrics, VoiceOrchestrator.incrementMetric,
      emitEvent_sttCalls]

theorem setCounter_droppedFrames_ne (m : SessionMetrics) (f : CounterField) (n : Nat)
    (h : f ≠ CounterField.droppedFrames) :
    (m.setCounter f n).droppedFrames = m.droppedFrames := by
  cases f
  · exact absurd rfl h
  · rfl
  · rfl
  · rfl

theorem trackMetrics_droppedCount (st : OrchState) (sid1 : Nat) (delta : SessionMetrics)
    (sid : Nat) :
    droppedCount (VoiceOrchestrator.trackMetrics st sid1 delta) sid = droppedCount st sid := by
  unfold droppedCount VoiceOrchestrator.trackMetrics
  by_cases h : sid = sid1
  · subst h
    rw [mapGet_set_self, Option.getD_some]
  · rw [mapGet_set_ne st.metrics sid1 sid _ h]

theorem incrementMetric_droppedCount_ne (st : OrchState) (sid1 : Nat) (f : CounterField)
    (sid : Nat) (h : f ≠ CounterField.droppedFrames) :
    droppedCount (VoiceOrchestrator.incrementMetric st sid1 f) sid = droppedCount st sid := by
  unfold droppedCount VoiceOrchestrator.incrementMetric
  by_cases hsid : sid = sid1
  · subst hsid
    rw [mapGet_set_self, Option.getD_some, setCounter_droppedFrames_ne _ _ _ h]
  · rw [mapGet_set_ne st.metrics sid1 sid _ hsid]

theorem emitEvent_droppedCount (deps : OrchestratorDeps) (st : OrchState) (e : SessionEvent)
    (sid : Nat) :
    droppedCount (VoiceOrchestrator.emitEvent deps st e) sid = droppedCount st sid := by
  unfold droppedCount
  rw [emitEvent_metrics]

theorem markFrameDropped_droppedCount_self (st : OrchState) (sid : Nat) :
    droppedCount (VoiceOrchestrator.markFrameDropped st sid) sid = droppedCount st sid + 1 := by
  have h := incrementMetric_counter_self st sid CounterField.droppedFrames
  unfold droppedCount VoiceOrchestrator.markFrameDropped
  have hd : ∀ m : SessionMetrics, m.getCounter CounterField.droppedFrames
      = m.droppedFrames := fun m => rfl
  rw [hd] at h
  rw [h]
  rfl

theorem markFrameDropped_sessionStore (st : OrchState) (sid : Nat) :
    (VoiceOrchestrator.markFrameDropped st sid).sessionStore = st.sessionStore := rfl

theorem markFrameDropped_lastFrame (st : OrchState) (sid : Nat) :
    (VoiceOrchestrator.markFrameDropped st sid).lastFrameAtMs = st.lastFrameAtMs := rfl

theorem markFrameDropped_sttCalls (st : OrchState) (sid : Nat) :
    (VoiceOrchestrator.markFrameDropped st sid).sttCalls = st.sttCalls := rfl

theorem processAcceptedFrame_droppedCount (deps : OrchestratorDeps) (st : OrchState)
    (frame : AudioFrame) (oracle : FrameOracle) (sid : Nat) :
    droppedCount (VoiceOrchestrator.processAcceptedFrame deps st frame oracle) sid
      = droppedCount st sid := by
  unfold VoiceOrchestrator.processAcceptedFrame
  repeat' split
  all_goals
    first
    | rw [trackMetrics_droppedCount]
    | rw [incrementMetric_droppedCount_ne _ _ _ _ (by intro hx; cases hx),
        trackMetrics_droppedCount]
  all_goals
    unfold droppedCount
    simp [emitEvent_metrics]

theorem onAudioFrame_drop (deps : OrchestratorDeps) (st : OrchState) (frame : AudioFrame)
    (oracle : FrameOracle) (s : CallSession)
    (hs : st.sessionStore.get frame.sessionId = some s)
    (hmode : ¬s.mode = SessionMode.passthrough) (prev : Int)
    (hprev : mapGet st.lastFrameAtMs frame.sessionId = some prev)
    (hlt : frame.timestampMs - prev < deps.minFrameIntervalMs.getD 0) :
    VoiceOrchestrator.onAudioFrame deps st frame oracle
      = VoiceOrchestrator.markFrameDropped st frame.sessionId := by
  unfold VoiceOrchestrator.onAudioFrame
  rw [hs]
  simp only [if_neg hmode]
  rw [hprev]
  simp only [if_pos hlt]

theorem onAudioFrame_accept_prev (deps : OrchestratorDeps) (st : OrchState)
    (frame : AudioFrame) (oracle : FrameOracle) (s : CallSession)
    (hs : st.sessionStore.get frame.sessionId = some s)
    (hmode : ¬s.mode = SessionMode.passthrough) (prev : Int)
    (hprev : mapGet st.lastFrameAtMs frame.sessionId = some prev)
    (hge : ¬frame.timestampMs - prev < deps.minFrameIntervalMs.getD 0) :
    VoiceOrchestrator.onAudioFrame deps st frame oracle
      = VoiceOrchestrator.processAcceptedFrame deps st frame oracle := by
  unfold VoiceOrchestrator.onAudioFrame
  rw [hs]
  simp only [if_neg hmode]
  rw [hprev]
  simp only [if_neg hge]

theorem onAudioFrame_accept_first (deps : OrchestratorDeps) (st : OrchState)
    (frame : AudioFrame) (oracle : FrameOracle) (s : CallSession)
    (hs : st.sessionStore.get frame.sessionId = some s)
    (hmode : ¬s.mode = SessionMode.passthrough)
    (hnone : mapGet st.lastFrameAtMs frame.sessionId = none) :
    VoiceOrchestrator.onAudioFrame deps st frame oracle
      = VoiceOrchestrator.processAcceptedFrame deps st frame oracle := by
  unfold VoiceOrchestrator.onAudioFrame
  rw [hs]
  simp only [if_neg hmode]
  rw [hnone]

/-- C4 counterexample: with minFrameIntervalMs unset (treated as 0), the
frame at timestamp 5 following an accepted frame at timestamp 10 is still
rate-limit dropped (droppedFrames becomes 1 and the second frame never
reaches the STT provider), refuting the claim that no frame is ever
rate-limit dropped when the interval is 0 or unset: the source never
checks minFrameIntervalMs > 0. -/
theorem rate_limit_zero_interval_counterexample :
    noLimitDeps.minFrameIntervalMs.getD 0 = 0 ∧
    droppedCount rlState2 0 = 1 ∧
    rlState2.sttCalls = [mkFrame 10] := by
  refine ⟨rfl, ?_, ?_⟩ <;> decide

/-- C4 amended: a frame of a known non-passthrough session is rate-limit
dropped (droppedFrames incremented, no STT call) if and only if the
session has a recorded last-accepted-frame timestamp and the frame's
timestamp minus it is below minFrameIntervalMs (default 0) -- without the
claimed minFrameIntervalMs > 0 guard; and with interval D at least 1,
frames at timestamps t, t + D/2 and t + D + 1 yield exactly two STT
provider calls and one dropped frame. -/
theorem onAudioFrame_rate_limit_amended (deps : OrchestratorDeps) (st : OrchState)
    (frame : AudioFrame) (oracle : FrameOracle) (s : CallSession)
    (hs : st.sessionStore.get frame.sessionId = some s)
    (hmode : ¬s.mode = SessionMode.passthrough) :
    (∀ prev, mapGet st.lastFrameAtMs frame.sessionId = some prev →
      frame.timestampMs - prev < deps.minFrameIntervalMs.getD 0 →
      VoiceOrchestrator.onAudioFrame deps st frame oracle
        = VoiceOrchestrator.markFrameDropped st frame.sessionId ∧
      droppedCount (VoiceOrchestrator.onAudioFrame deps st frame oracle) frame.sessionId
        = droppedCount st frame.sessionId + 1) ∧
    ((VoiceOrchestrator.onAudioFrame deps st frame oracle).sttCalls = st.sttCalls ↔
      ∃ prev, mapGet st.lastFrameAtMs frame.sessionId = some prev ∧
        frame.timestampMs - prev < deps.minFrameIntervalMs.getD 0) ∧
    (∀ (D t : Int) (f1 f2 f3 : AudioFrame) (o1 o2 o3 : FrameOracle),
      deps.minFrameIntervalMs = some D → 0 < D →
      f1.sessionId = frame.sessionId → f2.sessionId = frame.sessionId →
      f3.sessionId = frame.sessionId →
      f1.timestampMs = t → f2.timestampMs = t + D / 2 → f3.timestampMs = t + D + 1 →
      mapGet st.lastFrameAtMs frame.sessionId = none →
      (VoiceOrchestrator.onAudioFrame deps
          (VoiceOrchestrator.onAudioFrame deps
            (VoiceOrchestrator.onAudioFrame deps st f1 o1) f2 o2) f3 o3).sttCalls
        = st.sttCalls ++ [f1, f3] ∧
      droppedCount (VoiceOrchestrator.onAudioFrame deps
          (VoiceOrchestrator.onAudioFrame deps
            (VoiceOrchestrator.onAudioFrame deps st f1 o1) f2 o2) f3 o3) frame.sessionId
        = droppedCount st frame.sessionId + 1) := by
  refine ⟨?_, ?_, ?_⟩
  · intro prev hprev hlt
    have e := onAudioFrame_drop deps st frame oracle s hs hmode prev hprev hlt
    refine ⟨e, ?_⟩
    rw [e]
    exact markFrameDropped_droppedCount_self st frame.sessionId
  · constructor
    · intro heq
      cases hm : mapGet st.lastFrameAtMs frame.sessionId with
      | none =>
        exfalso
        rw [onAudioFrame_accept_first deps st frame oracle s hs hmode hm,
          processAcceptedFrame_sttCalls] at heq
        simp at heq
      | some prev =>
        by_cases hlt : frame.timestampMs - prev < deps.minFrameIntervalMs.getD 0
        · exact ⟨prev, rfl, hlt⟩
        · exfalso
          rw [onAudioFrame_accept_prev deps st frame oracle s hs hmode prev hm hlt,
            processAcceptedFrame_sttCalls] at heq
          simp at heq
    · rintro ⟨prev, hm, hlt⟩
      rw [onAudioFrame_drop deps st frame oracle s hs hmode prev hm hlt]
      exact markFrameDropped_sttCalls st frame.sessionId
  · intro D t f1 f2 f3 o1 o2 o3 hmin hD h1 h2 h3 ht1 ht2 ht3 hnone
    have hs1 : st.sessionStore.get f1.sessionId = some s := by rw [h1]; exact hs
    have hn1 : mapGet st.lastFrameAtMs f1.sessionId = none := by rw [h1]; exact hnone
    have e1 : VoiceOrchestrator.onAudioFrame deps st f1 o1
        = VoiceOrchestrator.processAcceptedFrame deps st f1 o1 :=
      onAudioFrame_accept_first deps st f1 o1 s hs1 hmode hn1
    have hstore1 : (VoiceOrchestrator.onAudioFrame deps st f1 o1).sessionStore
        = st.sessionStore := by
      rw [e1]; exact processAcceptedFrame_sessionStore deps st f1 o1
    have hlast1 : mapGet (VoiceOrchestrator.onAudioFrame deps st f1 o1).lastFrameAtMs
        f2.sessionId = some t := by
      rw [e1, processAcceptedFrame_lastFrame, h2, ← h1, ← ht1]
      exact mapGet_set_self st.lastFrameAtMs f1.sessionId f1.timestampMs
    have hs2 : (VoiceOrchestrator.onAudioFrame deps st f1 o1).sessionStore.get f2.sessionId
        = some s := by
      rw [hstore1, h2]; exact hs
    have hlt2 : f2.timestampMs - t < deps.minFrameIntervalMs.getD 0 := by
      rw [ht2, hmin]
      show t + D / 2 - t < D
      omega
    have e2 : VoiceOrchestrator.onAudioFrame deps
        (VoiceOrchestrator.onAudioFrame deps st f1 o1) f2 o2
        = VoiceOrchestrator.markFrameDropped
            (VoiceOrchestrator.onAudioFrame deps st f1 o1) f2.sessionId :=
      onAudioFrame_drop deps (VoiceOrchestrator.onAudioFrame deps st f1 o1) f2 o2 s hs2
        hmode t hlast1 hlt2
    have hstore2 : (VoiceOrchestrator.onAudioFrame deps
        (VoiceOrchestrator.onAudioFrame deps st f1 o1) f2 o2).sessionStore
        = st.sessionStore := by
      rw [e2, markFrameDropped_sessionStore, hstore1]
    have hlast2 : mapGet (VoiceOrchestrator.onAudioFrame deps
        (VoiceOrchestrator.onAudioFrame deps st f1 o1) f2 o2).lastFrameAtMs f3.sessionId
        = some t := by
      rw [e2, markFrameDropped_lastFrame, h3, ← h2]
      exact hlast1
    have hs3 : (VoiceOrchestrator.onAudioFrame deps
        (VoiceOrchestrator.onAudioFrame deps st f1 o1) f2 o2).sessionStore.get f3.sessionId
        = some s := by
      rw [hstore2, h3]; exact hs
    have hge3 : ¬f3.timestampMs - t < deps.minFrameIntervalMs.getD 0 := by
      rw [ht3, hmin]
      show ¬t + D + 1 - t < D
      omega
    have e3 : VoiceOrchestrator.onAudioFrame deps (VoiceOrchestrator.onAudioFrame deps
        (VoiceOrchestrator.onAudioFrame deps st f1 o1) f2 o2) f3 o3
        = VoiceOrchestrator.processAcceptedFrame deps (VoiceOrchestrator.onAudioFrame deps
            (VoiceOrchestrator.onAudioFrame deps st f1 o1) f2 o2) f3 o3 :=
      onAudioFrame_accept_prev deps _ f3 o3 s hs3 hmode t hlast2 hge3
    constructor
    · rw [e3, processAcceptedFrame_sttCalls, e2, markFrameDropped_sttCalls, e1,
        processAcceptedFrame_sttCalls]
      simp
    · rw [e3, processAcceptedFrame_droppedCount, e2, h2, markFrameDropped_droppedCount_self,
        e1, processAcceptedFrame_droppedCount]

/-- Evaluation witness for C4 on the demo session and a first frame. -/
theorem onAudioFrame_rate_limit_amended_witness :
    (demoState.sessionStore.get (mkFrame 10).sessionId = some demoSession ∧
      ¬demoSession.mode = SessionMode.passthrough) ∧
    ((VoiceOrchestrator.onAudioFrame demoDeps demoState (mkFrame 10) silentOracle).sttCalls
        = demoState.sttCalls ↔
      ∃ prev, mapGet demoState.lastFrameAtMs (mkFrame 10).sessionId = some prev ∧
        (mkFrame 10).timestampMs - prev < demoDeps.minFrameIntervalMs.getD 0) :=
  ⟨⟨by decide, by decide⟩,
    (onAudioFrame_rate_limit_amended demoDeps demoState (mkFrame 10) silentOracle demoSession
      (by decide) (by decide)).2.1⟩

theorem dropped_run_aux (deps : OrchestratorDeps) (s : CallSession) (sid : Nat) (t0 : Int)
    (hmode : ¬s.mode = SessionMode.passthrough) :
    ∀ (runs : List (AudioFrame × FrameOracle)) (st : OrchState),
      st.sessionStore.get sid = some s →
      mapGet st.lastFrameAtMs sid = some t0 →
      (∀ p ∈ runs, p.1.sessionId = sid ∧
        p.1.timestampMs - t0 < deps.minFrameIntervalMs.getD 0) →
      (List.foldl (fun acc p => VoiceOrchestrator.onAudioFrame deps acc p.1 p.2) st
          runs).lastFrameAtMs = st.lastFrameAtMs ∧
      (List.foldl (fun acc p => VoiceOrchestrator.onAudioFrame deps acc p.1 p.2) st
          runs).sttCalls = st.sttCalls ∧
      (List.foldl (fun acc p => VoiceOrchestrator.onAudioFrame deps acc p.1 p.2) st
          runs).sessionStore = st.sessionStore ∧
      droppedCount (List.foldl (fun acc p => VoiceOrchestrator.onAudioFrame deps acc p.1 p.2)
          st runs) sid = droppedCount st sid + runs.length := by
  intro runs
  induction runs with
  | nil =>
    intro st hst hlast hall
    exact ⟨rfl, rfl, rfl, rfl⟩
  | cons p rest ih =>
    intro st hst hlast hall
    obtain ⟨hid, hlt⟩ := hall p (by simp)
    have hsp : st.sessionStore.get p.1.sessionId = some s := by rw [hid]; exact hst
    have hpv : mapGet st.lastFrameAtMs p.1.sessionId = some t0 := by rw [hid]; exact hlast
    have e := onAudioFrame_drop deps st p.1 p.2 s hsp hmode t0 hpv hlt
    have hst1 : (VoiceOrchestrator.onAudioFrame deps st p.1 p.2).sessionStore.get sid
        = some s := by rw [e, markFrameDropped_sessionStore]; exact hst
    have hlast1 : mapGet (VoiceOrchestrator.onAudioFrame deps st p.1 p.2).lastFrameAtMs sid
        = some t0 := by rw [e, markFrameDropped_lastFrame]; exact hlast
    have hall1 : ∀ q ∈ rest, q.1.sessionId = sid ∧
        q.1.timestampMs - t0 < deps.minFrameIntervalMs.getD 0 :=
      fun q hq => hall q (by simp [hq])
    have hres := ih (VoiceOrchestrator.onAudioFrame deps st p.1 p.2) hst1 hlast1 hall1
    simp only [List.foldl_cons]
    refine ⟨?_, ?_, ?_, ?_⟩
    · rw [hres.1, e, markFrameDropped_lastFrame]
    · rw [hres.2.1, e, markFrameDropped_sttCalls]
    · rw [hres.2.2.1, e, markFrameDropped_sessionStore]
    · rw [hres.2.2.2, e, hid, markFrameDropped_droppedCount_self]
      simp
      omega

/-- C10: the per-session rate-limiter timestamp advances only when a frame
passes the rate-limit check: a dropped frame leaves lastFrameAtMs
unchanged while an accepted frame records its own timestamp, so every
frame is compared against the most recently accepted frame's timestamp
and an arbitrarily long run of frames all within minFrameIntervalMs of the
last accepted timestamp is dropped in its entirety, never reaching the
STT provider. -/
theorem rate_limit_window_no_slide (deps : OrchestratorDeps) (st : OrchState)
    (s : CallSession) (sid : Nat) (t0 : Int)
    (hs : st.sessionStore.get sid = some s)
    (hmode : ¬s.mode = SessionMode.passthrough)
    (hprev : mapGet st.lastFrameAtMs sid = some t0) :
    (∀ (frame : AudioFrame) (oracle : FrameOracle), frame.sessionId = sid →
      frame.timestampMs - t0 < deps.minFrameIntervalMs.getD 0 →
      (VoiceOrchestrator.onAudioFrame deps st frame oracle).lastFrameAtMs
        = st.lastFrameAtMs) ∧
    (∀ (frame : AudioFrame) (oracle : FrameOracle), frame.sessionId = sid →
      ¬frame.timestampMs - t0 < deps.minFrameIntervalMs.getD 0 →
      (VoiceOrchestrator.onAudioFrame deps st frame oracle).lastFrameAtMs
        = mapSet st.lastFrameAtMs sid frame.timestampMs) ∧
    (∀ runs : List (AudioFrame × FrameOracle),
      (∀ p ∈ runs, p.1.sessionId = sid ∧
        p.1.timestampMs - t0 < deps.minFrameIntervalMs.getD 0) →
      (List.foldl (fun acc p => VoiceOrchestrator.onAudioFrame deps acc p.1 p.2) st
          runs).lastFrameAtMs = st.lastFrameAtMs ∧
      (List.foldl (fun acc p => VoiceOrchestrator.onAudioFrame deps acc p.1 p.2) st
          runs).sttCalls = st.sttCalls ∧
      droppedCount (List.foldl (fun acc p => VoiceOrchestrator.onAudioFrame deps acc p.1 p.2)
          st runs) sid = droppedCount st sid + runs.length) := by
  refine ⟨?_, ?_, ?_⟩
  · intro frame oracle hid hlt
    have hsp : st.sessionStore.get frame.sessionId = some s := by rw [hid]; exact hs
    have hpv : mapGet st.lastFrameAtMs frame.sessionId = some t0 := by rw [hid]; exact hprev
    rw [onAudioFrame_drop deps st frame oracle s hsp hmode t0 hpv hlt]
    exact markFrameDropped_lastFrame st frame.sessionId
  · intro frame oracle hid hge
    have hsp : st.sessionStore.get frame.sessionId = some s := by rw [hid]; exact hs
    have hpv : mapGet st.lastFrameAtMs frame.sessionId = some t0 := by rw [hid]; exact hprev
    rw [onAudioFrame_accept_prev deps st frame oracle s hsp hmode t0 hpv hge,
      processAcceptedFrame_lastFrame, hid]
  · intro runs hall
    have h := dropped_run_aux deps s sid t0 hmode runs st hs hprev hall
    exact ⟨h.1, h.2.1, h.2.2.2⟩

/-- Evaluation witness for C10 at a state whose session 0 has recorded
last-accepted timestamp 1000 and rate-limit interval 100. -/
theorem rate_limit_window_no_slide_witness :
    (c10State.sessionStore.get 0 = some demoSession ∧
      ¬demoSession.mode = SessionMode.passthrough ∧
      mapGet c10State.lastFrameAtMs 0 = some 1000) ∧
    (∀ runs : List (AudioFrame × FrameOracle),
      (∀ p ∈ runs, p.1.sessionId = 0 ∧
        p.1.timestampMs - 1000 < demoDeps.minFrameIntervalMs.getD 0) →
      (List.foldl (fun acc p => VoiceOrchestrator.onAudioFrame demoDeps acc p.1 p.2) c10State
          runs).lastFrameAtMs = c10State.lastFrameAtMs ∧
      (List.foldl (fun acc p => VoiceOrchestrator.onAudioFrame demoDeps acc p.1 p.2) c10State
          runs).sttCalls = c10State.sttCalls ∧
      droppedCount (List.foldl (fun acc p => VoiceOrchestrator.onAudioFrame demoDeps acc p.1
          p.2) c10State runs) 0 = droppedCount c10State 0 + runs.length) :=
  ⟨⟨by decide, by decide, by decide⟩,
    (rate_limit_window_no_slide demoDeps c10State demoSession 0 1000 (by decide) (by decide)
      (by decide)).2.2⟩

theorem mapGet_mem {κ α : Type} [DecidableEq κ] (m : List (κ × α)) (k : κ) (v : α)
    (h : mapGet m k = some v) : (k, v) ∈ m := by
  induction m with
  | nil => cases h
  | cons p rest ih =>
    obtain ⟨k0, v0⟩ := p
    by_cases hk : k = k0
    · subst hk
      simp [mapGet] at h
      simp [h]
    · simp [mapGet, hk] at h
      simp [ih h]

theorem mapSet_mapSet {κ α : Type} [DecidableEq κ] (m : List (κ × α)) (k : κ) (v w : α) :
    mapSet (mapSet m k v) k w = mapSet m k w := by
  induction m with
  | nil => simp [mapSet]
  | cons p rest ih =>
    obtain ⟨k0, v0⟩ := p
    by_cases hk : k = k0 <;> simp [mapSet, hk, ih]

theorem onAudioFrame_sessionStore (deps : OrchestratorDeps) (st : OrchState)
    (frame : AudioFrame) (oracle : FrameOracle) :
    (VoiceOrchestrator.onAudioFrame deps st frame oracle).sessionStore = st.sessionStore := by
  unfold VoiceOrchestrator.onAudioFrame
  repeat' split
  all_goals
    first
    | rfl
    | exact processAcceptedFrame_sessionStore deps st frame oracle

theorem updateSessionControl_sessionStore (deps : OrchestratorDeps) (st : OrchState)
    (sid : Nat) (patch : SessionControlUpdate) (now : Int) :
    (VoiceOrchestrator.updateSessionControl deps st sid patch now).1.sessionStore
      = (st.sessionStore.updateControl sid patch).1 := by
  unfold VoiceOrchestrator.updateSessionControl
  cases h : (st.sessionStore.updateControl sid patch).2 with
  | none => simp only [h]
  | some session => simp only [h, emitEvent_sessionStore]

theorem endSession_none (deps : OrchestratorDeps) (st : OrchState) (sid : Nat) (now : Int)
    (h : mapGet st.sessionStore.sessions sid = none) :
    VoiceOrchestrator.endSession deps st sid now = st := by
  unfold VoiceOrchestrator.endSession SessionStore.updateState
  rw [h]

theorem endSession_some (deps : OrchestratorDeps) (st : OrchState) (sid : Nat) (now : Int)
    (s : CallSession) (h : mapGet st.sessionStore.sessions sid = some s) :
    (VoiceOrchestrator.endSession deps st sid now).sessionStore
      = { st.sessionStore with
          sessions := mapSet st.sessionStore.sessions sid { s with state := .ended } } := by
  unfold VoiceOrchestrator.endSession SessionStore.updateState
  rw [h]
  simp [emitEvent_sessionStore]

theorem onIncomingCall_miss_sessionStore (deps : OrchestratorDeps) (st : OrchState)
    (event : IncomingCallEvent) (now : Int)
    (hex : st.sessionStore.getByExternal event.source.toKey event.externalCallId = none) :
    (VoiceOrchestrator.onIncomingCall deps st event now).1.sessionStore
      = { sessions := mapSet st.sessionStore.sessions st.sessionStore.nextId
            { SessionStore.mintSession event deps.outboundTargetE164 st.sessionStore.nextId with
                state := SessionState.active }
          externalToInternal := mapSet st.sessionStore.externalToInternal
            (event.source.toKey ++ ":" ++ event.externalCallId) st.sessionStore.nextId
          nextId := st.sessionStore.nextId + 1 } := by
  unfold VoiceOrchestrator.onIncomingCall
  rw [hex]
  simp only [emitEvent_sessionStore]
  unfold SessionStore.createFromIncoming SessionStore.updateState
  simp only [mintSession_id, mapGet_set_self, Option.getD_some, mapSet_mapSet]

theorem stateForward_refl (a : SessionState) : stateForward a a := Or.inl rfl

theorem stateForward_to_ended (a : SessionState) (h : a ≠ SessionState.failed) :
    stateForward a SessionState.ended := by
  cases a
  · exact Or.inr (Or.inl rfl)
  · exact Or.inr (Or.inr ⟨rfl, Or.inl rfl⟩)
  · exact Or.inl rfl
  · exact absurd rfl h

theorem applyControlPatch_state (s : CallSession) (patch : SessionControlUpdate) :
    (SessionStore.applyControlPatch s patch).state = s.state := rfl

/-- C6: endSession leaves the session in the ended state and is
terminally idempotent, and every orchestrator operation moves a stored
session's state only forward along pending, active, then terminally ended
or failed, preserving the reachable-state invariant (no failed sessions,
fresh id counter) that holds of the initial state. -/
theorem endSession_terminal_monotonic (deps : OrchestratorDeps) (st : OrchState)
    (hInv : OrchInv st) (sid : Nat) (s : CallSession)
    (hs : st.sessionStore.get sid = some s) (now now2 : Int) (op : OrchOp) :
    (VoiceOrchestrator.endSession deps st sid now).sessionStore.get sid
      = some { s with state := SessionState.ended } ∧
    (VoiceOrchestrator.endSession deps (VoiceOrchestrator.endSession deps st sid now) sid
        now2).sessionStore.get sid = some { s with state := SessionState.ended } ∧
    (∀ s2, (applyOp deps st op).sessionStore.get sid = some s2 →
      stateForward s.state s2.state) ∧
    OrchInv (applyOp deps st op) ∧
    OrchInv OrchState.initial := by
  have hget : mapGet st.sessionStore.sessions sid = some s := hs
  have h1 : (VoiceOrchestrator.endSession deps st sid now).sessionStore.get sid
      = some { s with state := SessionState.ended } := by
    unfold SessionStore.get
    rw [endSession_some deps st sid now s hget]
    exact mapGet_set_self st.sessionStore.sessions sid { s with state := SessionState.ended }
  have h2 : (VoiceOrchestrator.endSession deps (VoiceOrchestrator.endSession deps st sid now)
      sid now2).sessionStore.get sid = some { s with state := SessionState.ended } := by
    have hget1 : mapGet (VoiceOrchestrator.endSession deps st sid
        now).sessionStore.sessions sid = some { s with state := SessionState.ended } := h1
    unfold SessionStore.get
    rw [endSession_some deps (VoiceOrchestrator.endSession deps st sid now) sid now2
      { s with state := SessionState.ended } hget1]
    exact mapGet_set_self _ sid _
  have hinit : OrchInv OrchState.initial := by
    intro p hp
    cases hp
  have hmono : ∀ s2, (applyOp deps st op).sessionStore.get sid = some s2 →
      stateForward s.state s2.state := by
    cases op with
    | incoming e n3 =>
      cases hex : st.sessionStore.getByExternal e.source.toKey e.externalCallId with
      | some ex =>
        intro s2 hs2
        have heq : (VoiceOrchestrator.onIncomingCall deps st e n3).1 = st := by
          rw [onIncomingCall_hit deps st e n3 ex hex]
        have hs2b : st.sessionStore.get sid = some s2 := by
          rw [← heq]
          exact hs2
        rw [hs] at hs2b
        cases hs2b
        exact stateForward_refl s.state
      | none =>
        intro s2 hs2
        have hminted := onIncomingCall_miss_sessionStore deps st e n3 hex
        have hfresh : sid < st.sessionStore.nextId := (hInv (sid, s) (mapGet_mem _ _ _ hget)).2
        have hne : sid ≠ st.sessionStore.nextId := Nat.ne_of_lt hfresh
        have hred : (applyOp deps st (OrchOp.incoming e n3)).sessionStore.get sid
            = st.sessionStore.get sid := by
          show (VoiceOrchestrator.onIncomingCall deps st e n3).1.sessionStore.get sid = _
          unfold SessionStore.get
          rw [hminted]
          exact mapGet_set_ne st.sessionStore.sessions st.sessionStore.nextId sid _ hne
        rw [hred, hs] at hs2
        cases hs2
        exact stateForward_refl s.state
    | control sid2 patch n3 =>
      intro s2 hs2
      have hss := updateSessionControl_sessionStore deps st sid2 patch n3
      cases hget2 : mapGet st.sessionStore.sessions sid2 with
      | none =>
        have hctl : (st.sessionStore.updateControl sid2 patch).1 = st.sessionStore := by
          unfold SessionStore.updateControl
          rw [hget2]
        have hred : (applyOp deps st (OrchOp.control sid2 patch n3)).sessionStore
            = st.sessionStore := by
          show (VoiceOrchestrator.updateSessionControl deps st sid2 patch n3).1.sessionStore = _
          rw [hss, hctl]
        rw [show (applyOp deps st (OrchOp.control sid2 patch n3)).sessionStore.get sid
            = st.sessionStore.get sid by rw [hred]] at hs2
        rw [hs] at hs2
        cases hs2
        exact stateForward_refl s.state
      | some ex =>
        have hchar := updateControl_found st.sessionStore sid2 patch ex hget2
        by_cases hcond : ex.state = SessionState.pending ∨ ex.state = SessionState.active
        · have hctl : (st.sessionStore.updateControl sid2 patch).1
              = { st.sessionStore with
                  sessions :=
                    mapSet st.sessionStore.sessions sid2 (SessionStore.applyControlPatch ex patch) } := by
            rw [hchar, if_pos hcond]
          have hred : (applyOp deps st (OrchOp.control sid2 patch n3)).sessionStore.sessions
              = mapSet st.sessionStore.sessions sid2 (SessionStore.applyControlPatch ex patch) := by
            show (VoiceOrchestrator.updateSessionControl deps st sid2 patch
              n3).1.sessionStore.sessions = _
            rw [hss, hctl]
          have hs2b : mapGet (mapSet st.sessionStore.sessions sid2
              (SessionStore.applyControlPatch ex patch)) sid = some s2 := by
            rw [← hred]
            exact hs2
          by_cases hsid : sid = sid2
          · subst hsid
            rw [hget] at hget2
            cases hget2
            rw [mapGet_set_self] at hs2b
            cases hs2b
            rw [applyControlPatch_state]
            exact stateForward_refl s.state
          · rw [mapGet_set_ne _ _ _ _ hsid, hget] at hs2b
            cases hs2b
            exact stateForward_refl s.state
        · have hctl : (st.sessionStore.updateControl sid2 patch).1 = st.sessionStore := by
            rw [hchar, if_neg hcond]
          have hred : (applyOp deps st (OrchOp.control sid2 patch n3)).sessionStore
              = st.sessionStore := by
            show (VoiceOrchestrator.updateSessionControl deps st sid2 patch n3).1.sessionStore = _
            rw [hss, hctl]
          rw [show (applyOp deps st (OrchOp.control sid2 patch n3)).sessionStore.get sid
              = st.sessionStore.get sid by rw [hred]] at hs2
          rw [hs] at hs2
          cases hs2
          exact stateForward_refl s.state
    | frame f o =>
      intro s2 hs2
      have hred : (applyOp deps st (OrchOp.frame f o)).sessionStore = st.sessionStore :=
        onAudioFrame_sessionStore deps st f o
      rw [show (applyOp deps st (OrchOp.frame f o)).sessionStore.get sid
          = st.sessionStore.get sid by rw [hred]] at hs2
      rw [hs] at hs2
      cases hs2
      exact stateForward_refl s.state
    | endCall sid2 n3 =>
      intro s2 hs2
      cases hget2 : mapGet st.sessionStore.sessions sid2 with
      | none =>
        have heq : VoiceOrchestrator.endSession deps st sid2 n3 = st :=
          endSession_none deps st sid2 n3 hget2
        have hs2b : st.sessionStore.get sid = some s2 := by
          rw [show (applyOp deps st (OrchOp.endCall sid2 n3)) = st from heq] at hs2
          exact hs2
        rw [hs] at hs2b
        cases hs2b
        exact stateForward_refl s.state
      | some x =>
        have hstore := endSession_some deps st sid2 n3 x hget2
        have hs2b : mapGet (mapSet st.sessionStore.sessions sid2
            { x with state := SessionState.ended }) sid = some s2 := by
          have : (applyOp deps st (OrchOp.endCall sid2 n3)).sessionStore.sessions
              = mapSet st.sessionStore.sessions sid2 { x with state := SessionState.ended } := by
            show (VoiceOrchestrator.endSession deps st sid2 n3).sessionStore.sessions = _
            rw [hstore]
          rw [← this]
          exact hs2
        by_cases hsid : sid = sid2
        · subst hsid
          rw [hget] at hget2
          cases hget2
          rw [mapGet_set_self] at hs2b
          cases hs2b
          exact stateForward_to_ended s.state (hInv (sid, s) (mapGet_mem _ _ _ hget)).1
        · rw [mapGet_set_ne _ _ _ _ hsid, hget] at hs2b
          cases hs2b
          exact stateForward_refl s.state
  have hinv2 : OrchInv (applyOp deps st op) := by
    cases op with
    | incoming e n3 =>
      cases hex : st.sessionStore.getByExternal e.source.toKey e.externalCallId with
      | some ex =>
        have heq : (VoiceOrchestrator.onIncomingCall deps st e n3).1 = st := by
          rw [onIncomingCall_hit deps st e n3 ex hex]
        show OrchInv (VoiceOrchestrator.onIncomingCall deps st e n3).1
        rw [heq]
        exact hInv
      | none =>
        have hminted := onIncomingCall_miss_sessionStore deps st e n3 hex
        intro p hp
        have hp2 : p ∈ mapSet st.sessionStore.sessions st.sessionStore.nextId
            { SessionStore.mintSession e deps.outboundTargetE164 st.sessionStore.nextId with
                state := SessionState.active } := by
          have : (applyOp deps st (OrchOp.incoming e n3)).sessionStore.sessions
              = mapSet st.sessionStore.sessions st.sessionStore.nextId
                { SessionStore.mintSession e deps.outboundTargetE164 st.sessionStore.nextId with
                    state := SessionState.active } := by
            show (VoiceOrchestrator.onIncomingCall deps st e n3).1.sessionStore.sessions = _
            rw [hminted]
          rw [← this]
          exact hp
        have hnext : (applyOp deps st (OrchOp.incoming e n3)).sessionStore.nextId
            = st.sessionStore.nextId + 1 := by
          show (VoiceOrchestrator.onIncomingCall deps st e n3).1.sessionStore.nextId = _
          rw [hminted]
        rw [hnext]
        rcases mem_mapSet _ _ _ _ hp2 with h | h
        · rw [h]
          refine ⟨?_, Nat.lt_succ_self _⟩
          intro hx
          cases hx
        · obtain ⟨hnf, hlt⟩ := hInv p h
          exact ⟨hnf, Nat.lt_succ_of_lt hlt⟩
    | control sid2 patch n3 =>
      have hss := updateSessionControl_sessionStore deps st sid2 patch n3
      cases hget2 : mapGet st.sessionStore.sessions sid2 with
      | none =>
        have hctl : (st.sessionStore.updateControl sid2 patch).1 = st.sessionStore := by
          unfold SessionStore.updateControl
          rw [hget2]
        have hred : (applyOp deps st (OrchOp.control sid2 patch n3)).sessionStore
            = st.sessionStore := by
          show (VoiceOrchestrator.updateSessionControl deps st sid2 patch n3).1.sessionStore = _
          rw [hss, hctl]
        intro p hp
        rw [hred] at hp ⊢
        exact hInv p hp
      | some ex =>
        have hchar := updateControl_found st.sessionStore sid2 patch ex hget2
        by_cases hcond : ex.state = SessionState.pending ∨ ex.state = SessionState.active
        · have hctl : (st.sessionStore.updateControl sid2 patch).1
              = { st.sessionStore with
                  sessions :=
                    mapSet st.sessionStore.sessions sid2 (SessionStore.applyControlPatch ex patch) } := by
            rw [hchar, if_pos hcond]
          have hred : (applyOp deps st (OrchOp.control sid2 patch n3)).sessionStore
              = { st.sessionStore with
                  sessions :=
                    mapSet st.sessionStore.sessions sid2 (SessionStore.applyControlPatch ex patch) } := by
            show (VoiceOrchestrator.updateSessionControl deps st sid2 patch n3).1.sessionStore = _
            rw [hss, hctl]
          intro p hp
          rw [hred] at hp ⊢
          have hp2 : p ∈ mapSet st.sessionStore.sessions sid2
              (SessionStore.applyControlPatch ex patch) := hp
          rcases mem_mapSet _ _ _ _ hp2 with h | h
          · obtain ⟨hnf, hlt⟩ := hInv (sid2, ex) (mapGet_mem _ _ _ hget2)
            rw [h]
            refine ⟨?_, hlt⟩
            rw [applyControlPatch_state]
            exact hnf
          · exact hInv p h
        · have hctl : (st.sessionStore.updateControl sid2 patch).1 = st.sessionStore := by
            rw [hchar, if_neg hcond]
          have hred : (applyOp deps st (OrchOp.control sid2 patch n3)).sessionStore
              = st.sessionStore := by
            show (VoiceOrchestrator.updateSessionControl deps st sid2 patch n3).1.sessionStore = _
            rw [hss, hctl]
          intro p hp
          rw [hred] at hp ⊢
          exact hInv p hp
    | frame f o =>
      have hred : (applyOp deps st (OrchOp.frame f o)).sessionStore = st.sessionStore :=
        onAudioFrame_sessionStore deps st f o
      intro p hp
      rw [hred] at hp ⊢
      exact hInv p hp
    | endCall sid2 n3 =>
      cases hget2 : mapGet st.sessionStore.sessions sid2 with
      | none =>
        have heq : VoiceOrchestrator.endSession deps st sid2 n3 = st :=
          endSession_none deps st sid2 n3 hget2
        show OrchInv (VoiceOrchestrator.endSession deps st sid2 n3)
        rw [heq]
        exact hInv
      | some x =>
        have hstore := endSession_some deps st sid2 n3 x hget2
        intro p hp
        rw [show (applyOp deps st (OrchOp.endCall sid2 n3)).sessionStore
            = { st.sessionStore with
                sessions :=
                  mapSet st.sessionStore.sessions sid2 { x with state := SessionState.ended } }
            from hstore] at hp ⊢
        have hp2 : p ∈ mapSet st.sessionStore.sessions sid2
            { x with state := SessionState.ended } := hp
        rcases mem_mapSet _ _ _ _ hp2 with h | h
        · obtain ⟨hnf, hlt⟩ := hInv (sid2, x) (mapGet_mem _ _ _ hget2)
          rw [h]
          refine ⟨?_, hlt⟩
          intro hx
          cases hx
        · exact hInv p h

  exact ⟨h1, h2, hmono, hinv2, hinit⟩

/-- Evaluation witness for C6: ending the demo session at time 8 and again
at time 9 leaves it ended both times. -/
theorem endSession_terminal_monotonic_witness :
    (OrchInv demoState ∧ demoState.sessionStore.get 0 = some demoSession) ∧
    ((VoiceOrchestrator.endSession demoDeps demoState 0 8).sessionStore.get 0
        = some { demoSession with state := SessionState.ended } ∧
      (VoiceOrchestrator.endSession demoDeps
          (VoiceOrchestrator.endSession demoDeps demoState 0 8) 0 9).sessionStore.get 0
        = some { demoSession with state := SessionState.ended }) :=
  ⟨⟨by decide, by decide⟩,
    ⟨(endSession_terminal_monotonic demoDeps demoState (by decide) 0 demoSession (by decide)
        8 9 (OrchOp.endCall 0 9)).1,
      (endSession_terminal_monotonic demoDeps demoState (by decide) 0 demoSession (by decide)
        8 9 (OrchOp.endCall 0 9)).2.1⟩⟩

theorem mapGet_erase_self {κ α : Type} [DecidableEq κ] (m : List (κ × α)) (k : κ) :
    mapGet (mapErase m k) k = none := by
  induction m with
  | nil => rfl
  | cons p rest ih =>
    obtain ⟨k0, v0⟩ := p
    by_cases hk : k = k0
    · subst hk
      simp [mapErase, ih]
    · simp [mapErase, mapGet, hk, ih]

theorem mapGet_erase_ne {κ α : Type} [DecidableEq κ] (m : List (κ × α)) (k k2 : κ)
    (h : k2 ≠ k) : mapGet (mapErase m k) k2 = mapGet m k2 := by
  induction m with
  | nil => rfl
  | cons p rest ih =>
    obtain ⟨k0, v0⟩ := p
    by_cases hk : k = k0
    · subst hk
      simp [mapErase, mapGet, h, ih]
    · by_cases hk2 : k2 = k0 <;> simp [mapErase, mapGet, hk, hk2, ih]

/-- C7: enqueueReporting returns the resulting queue size together with
droppedOldest, which is true exactly when the enqueue overflowed the
per-session bound; on overflow the oldest chunk is dropped and the new one
kept, otherwise nothing is dropped; clear removes every queued chunk of
the session and nothing else; and the POST asterisk end handler leaves the
session ended with an emptied egress queue. -/
theorem egress_enqueue_reporting_and_clear (eg : EgressStore) (c : TtsChunk)
    (hB : 1 ≤ eg.maxQueuePerSession) :
    ((eg.enqueueReporting c).2.droppedOldest = true ↔
      eg.maxQueuePerSession ≤ EgressStore.size eg c.sessionId) ∧
    (eg.enqueueReporting c).2.queueSize
      = EgressStore.size (eg.enqueueReporting c).1 c.sessionId ∧
    (eg.maxQueuePerSession ≤ EgressStore.size eg c.sessionId →
      (mapGet (eg.enqueueReporting c).1.queues c.sessionId).getD []
        = ((mapGet eg.queues c.sessionId).getD []).tail ++ [c]) ∧
    (EgressStore.size eg c.sessionId < eg.maxQueuePerSession →
      (eg.enqueueReporting c).2.droppedOldest = false ∧
      (mapGet (eg.enqueueReporting c).1.queues c.sessionId).getD []
        = (mapGet eg.queues c.sessionId).getD [] ++ [c]) ∧
    (∀ sid, EgressStore.size (EgressStore.clear eg sid) sid = 0 ∧
      mapGet (EgressStore.clear eg sid).queues sid = none ∧
      ∀ sid2, sid2 ≠ sid →
        mapGet (EgressStore.clear eg sid).queues sid2 = mapGet eg.queues sid2) ∧
    (∀ (deps : OrchestratorDeps) (orch : OrchState) (sid : Nat) (now : Int) (s : CallSession),
      orch.sessionStore.get sid = some s →
      (handleAsteriskEnd deps orch eg sid now).1.sessionStore.get sid
        = some { s with state := SessionState.ended } ∧
      EgressStore.size (handleAsteriskEnd deps orch eg sid now).2 sid = 0) := by
  refine ⟨?_, ?_, ?_, ?_, ?_, ?_⟩
  · unfold EgressStore.enqueueReporting EgressStore.size
    simp only [decide_eq_true_eq, List.length_append, List.length_cons, List.length_nil]
    omega
  · unfold EgressStore.enqueueReporting EgressStore.size
    simp only [mapGet_set_self, Option.getD_some]
  · intro hover
    unfold EgressStore.size at hover
    unfold EgressStore.enqueueReporting
    have hcond : eg.maxQueuePerSession
        < ((mapGet eg.queues c.sessionId).getD [] ++ [c]).length := by
      simp only [List.length_append, List.length_cons, List.length_nil]
      omega
    simp only [if_pos hcond, mapGet_set_self, Option.getD_some]
    cases hq : (mapGet eg.queues c.sessionId).getD [] with
    | nil =>
      exfalso
      rw [hq] at hover
      simp at hover
      omega
    | cons a q0 => rfl
  · intro hlt
    unfold EgressStore.size at hlt
    unfold EgressStore.enqueueReporting
    have hcond : ¬eg.maxQueuePerSession
        < ((mapGet eg.queues c.sessionId).getD [] ++ [c]).length := by
      simp only [List.length_append, List.length_cons, List.length_nil]
      omega
    simp only [if_neg hcond, mapGet_set_self, Option.getD_some]
    refine ⟨?_, ?_⟩
    · simp only [decide_eq_false_iff_not]
      exact hcond
    · simp
  · intro sid
    unfold EgressStore.clear EgressStore.size
    refine ⟨?_, ?_, ?_⟩
    · rw [mapGet_erase_self]
      rfl
    · exact mapGet_erase_self eg.queues sid
    · intro sid2 h2
      exact mapGet_erase_ne eg.queues sid sid2 h2
  · intro deps orch sid now s hsess
    constructor
    · show (VoiceOrchestrator.endSession deps orch sid now).sessionStore.get sid = _
      unfold SessionStore.get
      rw [endSession_some deps orch sid now s hsess]
      exact mapGet_set_self orch.sessionStore.sessions sid { s with state := SessionState.ended }
    · show EgressStore.size (EgressStore.clear eg sid) sid = 0
      unfold EgressStore.clear EgressStore.size
      rw [mapGet_erase_self]
      rfl

/-- Evaluation witness for C7 on a bound-1 store already holding one chunk
for session 1. -/
theorem egress_enqueue_reporting_and_clear_witness :
    (1 ≤ (EgressStore.mk 1 [(1, [sampleChunk 1 1])]).maxQueuePerSession) ∧
    (((EgressStore.mk 1 [(1, [sampleChunk 1 1])]).enqueueReporting
        (sampleChunk 1 2)).2.droppedOldest = true ↔
      (EgressStore.mk 1 [(1, [sampleChunk 1 1])]).maxQueuePerSession
        ≤ EgressStore.size (EgressStore.mk 1 [(1, [sampleChunk 1 1])])
            (sampleChunk 1 2).sessionId) :=
  ⟨by decide,
    (egress_enqueue_reporting_and_clear (EgressStore.mk 1 [(1, [sampleChunk 1 1])])
      (sampleChunk 1 2) (by decide)).1⟩

/-- C8: every session-event envelope carries an idempotency key, and the
key is deterministic: it is derived only from the event's type, sessionId,
atMs and the stable hash of its payload, independent of the publish time,
so two publishes of an equal event (for example a retry) produce equal
keys. -/
theorem sessionEvent_idempotency_key_deterministic (e1 e2 : SessionEvent) (now1 now2 : Int)
    (ht : e1.type = e2.type) (hsid : e1.sessionId = e2.sessionId) (ha : e1.atMs = e2.atMs)
    (hp : stableHash (payloadCanonical e1.payload)
      = stableHash (payloadCanonical e2.payload)) :
    (mkSessionEventEnvelope e1 now1).idempotencyKey
      = (mkSessionEventEnvelope e2 now2).idempotencyKey ∧
    (mkSessionEventEnvelope e1 now1).idempotencyKey = sessionEventIdempotencyKey e1 := by
  constructor
  · unfold mkSessionEventEnvelope sessionEventIdempotencyKey
    rw [ht, hsid, ha, hp]
  · rfl

/-- Evaluation witness for C8: publishing the same event at times 100 and
200 yields the same idempotency key. -/
theorem sessionEvent_idempotency_key_deterministic_witness :
    (demoSessionEvent.type = demoSessionEvent.type ∧
      demoSessionEvent.sessionId = demoSessionEvent.sessionId ∧
      demoSessionEvent.atMs = demoSessionEvent.atMs ∧
      stableHash (payloadCanonical demoSessionEvent.payload)
        = stableHash (payloadCanonical demoSessionEvent.payload)) ∧
    ((mkSessionEventEnvelope demoSessionEvent 100).idempotencyKey
        = (mkSessionEventEnvelope demoSessionEvent 200).idempotencyKey ∧
      (mkSessionEventEnvelope demoSessionEvent 100).idempotencyKey
        = sessionEventIdempotencyKey demoSessionEvent) :=
  ⟨⟨rfl, rfl, rfl, rfl⟩,
    sessionEvent_idempotency_key_deterministic demoSessionEvent demoSessionEvent 100 200
      rfl rfl rfl rfl⟩

/-- C9: loadConfig treats the outbound target as required: it prefers
OUTBOUND_TARGET_E164, falls back to the legacy DESTINATION_PHONE_E164,
aborts startup (throws, modelled as Except.error) whenever the resulting
value fails E.164 validation (including when both are missing), and any
successfully returned value is E.164-valid, never a substitute. -/
theorem loadConfig_outbound_target_required (p l : Option String) :
    (∀ v, p = some v → loadConfigOutboundTarget p l
        = (if isValidE164 v then Except.ok v
           else Except.error ("Invalid OUTBOUND_TARGET_E164: " ++ v))) ∧
    (p = none → ∀ v, l = some v → loadConfigOutboundTarget p l
        = (if isValidE164 v then Except.ok v
           else Except.error ("Invalid OUTBOUND_TARGET_E164: " ++ v))) ∧
    (p = none → l = none →
      loadConfigOutboundTarget p l
        = Except.error ("Invalid OUTBOUND_TARGET_E164: " ++ "")) ∧
    (∀ v, loadConfigOutboundTarget p l = Except.ok v → isValidE164 v = true) := by
  refine ⟨?_, ?_, ?_, ?_⟩
  · intro v hv
    subst hv
    rfl
  · intro hp v hv
    subst hp
    subst hv
    rfl
  · intro hp hl
    subst hp
    subst hl
    rfl
  · intro v h
    unfold loadConfigOutboundTarget at h
    split at h
    · next hval =>
      cases h
      exact hval
    · next hval => cases h

/-- Evaluation witness for C9: the primary variable wins over the legacy
one and both carry valid E.164 numbers. -/
theorem loadConfig_outbound_target_required_witness :
    (∀ v, (some "+15550000001" : Option String) = some v →
      loadConfigOutboundTarget (some "+15550000001") (some "+15550000002")
        = (if isValidE164 v then Except.ok v
           else Except.error ("Invalid OUTBOUND_TARGET_E164: " ++ v))) ∧
    loadConfigOutboundTarget (some "+15550000001") (some "+15550000002")
      = Except.ok "+15550000001" :=
  ⟨(loadConfig_outbound_target_required (some "+15550000001") (some "+15550000002")).1,
    rfl⟩
